import Mathlib

/-!
Verification development for the Aerchain task-management backend
(`routes/taskRoutes.js` route handlers, `models/Task.js` mongoose schema,
`middleware/connection.js`).  The route handlers are embedded as pure
functions over an explicit list of stored tasks; mongoose save-time
validation is embedded as `validateDoc`; moment.js date handling is
embedded over a concrete calendar-date type, with the generic
`moment(string)` parser kept abstract as a function parameter.
-/

namespace Aerchain

/-- A calendar date at day granularity (the granularity at which the routes
compare dates: `moment.isBefore(moment(), 'day')`). -/
structure SDate where
  year : Nat
  month : Nat
  day : Nat
deriving DecidableEq, Repr

/-- Proleptic Gregorian leap-year rule, as used by moment.js for
day-of-month overflow checking. -/
def isLeapYear (y : Nat) : Bool :=
  (y % 4 == 0 && y % 100 != 0) || y % 400 == 0

/-- Number of days in a month, used by moment.js to decide whether a parsed
day-of-month overflows (an overflowing date is invalid even in non-strict
format parsing). -/
def daysInMonth (y m : Nat) : Nat :=
  if m = 2 then (if isLeapYear y then 29 else 28)
  else if m = 4 ∨ m = 6 ∨ m = 9 ∨ m = 11 then 30
  else 31

/-- The moment comparison `a.isBefore(b, 'day')`: strict lexicographic comparison at day
granularity. -/
def dateBefore (a b : SDate) : Bool :=
  decide (a.year < b.year ∨ (a.year = b.year ∧
    (a.month < b.month ∨ (a.month = b.month ∧ a.day < b.day))))

/-- Numeric value of a decimal digit character. -/
def digitVal (c : Char) : Nat := c.toNat - 48

/-- Zero-pad a number to two digits, as moment's `DD` / `MM` tokens do. -/
def pad2 (n : Nat) : String :=
  if n < 10 then "0" ++ toString n else toString n

/-- Zero-pad a number to four digits, as moment's `YYYY` token does. -/
def pad4 (n : Nat) : String :=
  if n < 10 then "000" ++ toString n
  else if n < 100 then "00" ++ toString n
  else if n < 1000 then "0" ++ toString n
  else toString n

/-- The rendering `format('DD-MM-YYYY')`: canonical storage form of a date. -/
def formatDDMMYYYY (d : SDate) : String :=
  pad2 d.day ++ "-" ++ pad2 d.month ++ "-" ++ pad4 d.year

/-- The literal test `/^\d{2}-\d{2}-\d{4}$/.test(s)` from the create/update
handlers: two digits, dash, two digits, dash, four digits. -/
def matchesDDMMYYYY (s : String) : Bool :=
  match s.data with
  | [a, b, '-', c, d, '-', e, f, g, h] =>
    a.isDigit && b.isDigit && c.isDigit && d.isDigit &&
    e.isDigit && f.isDigit && g.isDigit && h.isDigit
  | _ => false

/-- The day/month/year digit groups of a string of shape `DD-MM-YYYY`. -/
def datePatternDigits (s : String) : Option (Nat × Nat × Nat) :=
  match s.data with
  | [a, b, '-', c, d, '-', e, f, g, h] =>
    if a.isDigit && b.isDigit && c.isDigit && d.isDigit &&
       e.isDigit && f.isDigit && g.isDigit && h.isDigit then
      some (10 * digitVal a + digitVal b,
            10 * digitVal c + digitVal d,
            1000 * digitVal e + 100 * digitVal f + 10 * digitVal g + digitVal h)
    else none
  | _ => none

/-- The parse `moment(s, 'DD-MM-YYYY')` on a string of exactly that shape (the only
strings the handlers feed to this parse), and also the strict
`moment(s, 'DD-MM-YYYY', true)` used by the voice routes: the digit groups
are read positionally and the result is invalid when the month or the
day-of-month overflows. -/
def parseLayoutDDMMYYYY (s : String) : Option SDate :=
  match datePatternDigits s with
  | none => none
  | some (d, m, y) =>
    if 1 ≤ m ∧ m ≤ 12 ∧ 1 ≤ d ∧ d ≤ daysInMonth y m then some ⟨y, m, d⟩
    else none

/-- Errors of the shared due-date handling in the create/update handlers. -/
inductive DateError
  | invalidFormat
  | dateInPast
deriving DecidableEq, Repr

/-- The due-date pipeline shared by `create-task` and `update-task`:
pattern-matching strings are parsed with the `DD-MM-YYYY` layout, all other
strings go through the generic `moment(string)` parser (kept abstract as
`generic`); an unparseable date is `invalidFormat`, a date strictly before
today (day granularity) is `dateInPast`, and a valid date is re-rendered in
canonical `DD-MM-YYYY` form. -/
def parseDueDate (generic : String → Option SDate) (today : SDate) (s : String) :
    Except DateError String :=
  match (if matchesDDMMYYYY s then parseLayoutDDMMYYYY s else generic s) with
  | none => .error .invalidFormat
  | some d => if dateBefore d today then .error .dateInPast else .ok (formatDDMMYYYY d)

/-! ## String helpers mirroring the JavaScript operations used by the routes -/

/-- JavaScript `s.trim()`: strip leading and trailing whitespace. -/
def strTrim (s : String) : String :=
  ⟨((s.data.dropWhile Char.isWhitespace).reverse.dropWhile Char.isWhitespace).reverse⟩

/-- JavaScript `s.substring(0, n)`: the first `n` characters. -/
def strTake (s : String) (n : Nat) : String :=
  ⟨s.data.take n⟩

/-- JavaScript `s.toLowerCase()` (simple case folding). -/
def strLower (s : String) : String :=
  ⟨s.data.map Char.toLower⟩

/-- JavaScript `a || b` where `a` is a possibly-undefined string and `b` a
string: the empty string and `undefined` are falsy. -/
def jsOr (a : Option String) (b : String) : String :=
  match a with
  | some s => if s = "" then b else s
  | none => b

/-- JavaScript `a || b` on two possibly-undefined strings. -/
def jsOrStr (a b : Option String) : Option String :=
  match a with
  | some s => if s = "" then b else some s
  | none => b

/-- JavaScript truthiness of a possibly-undefined string. -/
def jsTruthy : Option String → Bool
  | some s => s != ""
  | none => false

/-- JavaScript `hay.includes(needle)`: literal substring containment (used by the voice
fallback's priority scan). -/
def strIncludes (hay needle : String) : Bool :=
  (List.range (hay.length + 1)).any fun i =>
    (hay.data.drop i).take needle.length == needle.data

/-!
### The regular expressions the handlers build from user text

The duplicate checks interpolate the (trimmed) title/description verbatim
into `^…$` regexes with the `i` flag, and the search filter interpolates the
search term into an unanchored `i`-flag regex.  The fragment modelled here
covers patterns built from literal characters and the `.` metacharacter
(which matches any single character other than a line terminator); `rxSafe`
marks the strings on which this fragment agrees with full JavaScript regex
semantics, and the duplicate-rule theorems are stated under that guard.
-/

/-- JavaScript regex line terminators, which the `.` metacharacter does not
match without the `s` flag. -/
def rxLineTerm (c : Char) : Bool :=
  c == Char.ofNat 10 || c == Char.ofNat 13 || c == Char.ofNat 8232 || c == Char.ofNat 8233

/-- One pattern character against one subject character, `i` flag: `.` is a
wildcard for anything but a line terminator, anything else compares after
simple case folding. -/
def rxCharMatch (p c : Char) : Bool :=
  (p == '.' && !(rxLineTerm c)) || p.toLower == c.toLower

/-- Full (anchored `^…$`) match of a literal-and-dot pattern. -/
def rxListFull : List Char → List Char → Bool
  | [], [] => true
  | p :: ps, c :: cs => rxCharMatch p c && rxListFull ps cs
  | _, _ => false

/-- The test `new RegExp('^' + pat + '$', 'i').test(s)` for the modelled fragment. -/
def rxFullMatch (pat s : String) : Bool :=
  rxListFull pat.data s.data

/-- Unanchored `i`-flag regex search, as in the `$regex` search filter. -/
def rxSearch (pat s : String) : Bool :=
  (List.range (s.length + 1)).any fun i =>
    rxListFull pat.data ((s.data.drop i).take pat.length)

/-- Regex metacharacters other than `.` (braces written by code). -/
def rxMeta : List Char :=
  ['*', '+', '?', '(', ')', '[', ']', '^', '$', '|', '\\', Char.ofNat 123, Char.ofNat 125]

/-- Strings whose interpolation into a regex is covered by the modelled
fragment: no metacharacter other than `.` occurs. -/
def rxSafe (s : String) : Bool :=
  s.data.all fun c => !(rxMeta.contains c)

/-- The comparison the specification describes for the duplicate rule:
plain case-insensitive equality of the two strings. -/
def specCiEq (a b : String) : Bool :=
  a.data.map Char.toLower == b.data.map Char.toLower

/-! ## Task entity model (`models/Task.js`) -/

/-- The `status` enum of the task schema. -/
inductive Status
  | toDo
  | inProgress
  | done
deriving DecidableEq, Repr

/-- The stored string of a status value. -/
def Status.str : Status → String
  | .toDo => "To Do"
  | .inProgress => "In Progress"
  | .done => "Done"

/-- The `priority` enum of the task schema. -/
inductive Priority
  | low
  | medium
  | high
  | critical
deriving DecidableEq, Repr

/-- The stored string of a priority value. -/
def Priority.str : Priority → String
  | .low => "Low"
  | .medium => "Medium"
  | .high => "High"
  | .critical => "Critical"

/-- The `validStatuses` list of the route handlers and the schema enum. -/
def validStatuses : List String := ["To Do", "In Progress", "Done"]

/-- The `validPriorities` list of the route handlers and the schema enum. -/
def validPriorities : List String := ["Low", "Medium", "High", "Critical"]

/-- Membership in the status enum, as a parse. -/
def parseStatus (s : String) : Option Status :=
  if s = "To Do" then some .toDo
  else if s = "In Progress" then some .inProgress
  else if s = "Done" then some .done
  else none

/-- Membership in the priority enum, as a parse. -/
def parsePriority (s : String) : Option Priority :=
  if s = "Low" then some .low
  else if s = "Medium" then some .medium
  else if s = "High" then some .high
  else if s = "Critical" then some .critical
  else none

/-- A stored task record.  The status/priority fields are the inductive
enums: mongoose validation (below) guarantees stored values lie in the
schema's enumerations.  `createdAt` drives the descending sort of the list
and board reads. -/
structure Task where
  id : String
  title : String
  description : String
  status : Status
  priority : Priority
  dueDate : String
  transcript : Option String
  createdAt : Nat
deriving DecidableEq, Repr

/-- A candidate document as handed to `new Task(...)` / `task.save()`:
every schema path is a possibly-absent string. -/
structure TaskDoc where
  title : Option String
  description : Option String
  status : Option String
  priority : Option String
  dueDate : Option String
  transcript : Option String
deriving DecidableEq, Repr

/-- The validated field values extracted by a successful save. -/
structure ValidTask where
  title : String
  description : String
  status : Status
  priority : Priority
  dueDate : String
  transcript : Option String
deriving DecidableEq, Repr

/-- The `title` path validation: required, 10–250 characters.  Mongoose's
required check fails on an absent value and on the empty string. -/
def checkTitle : Option String → Except String String
  | none => .error "Title is required"
  | some t =>
    if t = "" then .error "Title is required"
    else if t.length < 10 then .error "Title must be at least 10 characters"
    else if 250 < t.length then .error "Title must not exceed 250 characters"
    else .ok t

/-- The `description` path validation: required, 10–500 characters. -/
def checkDescription : Option String → Except String String
  | none => .error "Description is required"
  | some t =>
    if t = "" then .error "Description is required"
    else if t.length < 10 then .error "Description must be at least 10 characters"
    else if 500 < t.length then .error "Description must not exceed 500 characters"
    else .ok t

/-- The `status` path validation: enum with default `To Do`; an absent value
takes the default, a present value outside the enum fails. -/
def checkStatus : Option String → Except String Status
  | none => .ok .toDo
  | some s =>
    match parseStatus s with
    | some st => .ok st
    | none => .error "Status must be To Do, In Progress, or Done"

/-- The `priority` path validation: required enum. -/
def checkPriority : Option String → Except String Priority
  | none => .error "Priority is required"
  | some p =>
    if p = "" then .error "Priority is required"
    else
      match parsePriority p with
      | some pr => .ok pr
      | none => .error "Priority must be Low, Medium, High, or Critical"

/-- The `dueDate` path validation: required string (no format constraint in the
schema itself). -/
def checkDueDate : Option String → Except String String
  | none => .error "Due date is required"
  | some d =>
    if d = "" then .error "Due date is required" else .ok d

/-- The `transcript` path validation: optional, 10–1000 characters when
present; validators run on the empty string. -/
def checkTranscript : Option String → Except String (Option String)
  | none => .ok none
  | some t =>
    if t.length < 10 then .error "Transcript must be at least 10 characters"
    else if 1000 < t.length then .error "Transcript must not exceed 1000 characters"
    else .ok (some t)

/-- Mongoose save-time validation of a candidate document.  Paths are
checked in schema declaration order and the route handlers' `ValidationError`
branch reports the first failing path's message as a 400 response. -/
def validateDoc (d : TaskDoc) : Except String ValidTask :=
  match checkTitle d.title with
  | .error m => .error m
  | .ok t =>
    match checkDescription d.description with
    | .error m => .error m
    | .ok ds =>
      match checkStatus d.status with
      | .error m => .error m
      | .ok st =>
        match checkPriority d.priority with
        | .error m => .error m
        | .ok pr =>
          match checkDueDate d.dueDate with
          | .error m => .error m
          | .ok dd =>
            match checkTranscript d.transcript with
            | .error m => .error m
            | .ok tr => .ok ⟨t, ds, st, pr, dd, tr⟩

/-! ## Shared response shape -/

/-- The `{ success, message }` envelope with its HTTP status code.  Success
replies that carry no `message` field use the empty string. -/
structure HResp where
  status : Nat
  success : Bool
  message : String
deriving DecidableEq, Repr

/-- The check `mongoose.Types.ObjectId.isValid` on a string: a 24-character hex
string, or any 12-character string (interpreted as 12 raw bytes). -/
def isHexChar (c : Char) : Bool :=
  c.isDigit || decide (97 ≤ c.toNat ∧ c.toNat ≤ 102) || decide (65 ≤ c.toNat ∧ c.toNat ≤ 70)

/-- Syntactic validity of a task id. -/
def objectIdValid (s : String) : Bool :=
  (s.length == 24 && s.data.all isHexChar) || s.length == 12

/-- Descending insertion by `createdAt` (helper for `sortDesc`). -/
def insertByCreated (t : Task) : List Task → List Task
  | [] => [t]
  | h :: rest => if h.createdAt ≤ t.createdAt then t :: h :: rest else h :: insertByCreated t rest

/-- The `$sort: { createdAt: -1 }` stage of the read pipelines: sort the
matching records by `createdAt` descending. -/
def sortDesc : List Task → List Task
  | [] => []
  | h :: rest => insertByCreated h (sortDesc rest)

/-- JavaScript `Math.ceil(total / limit)` on naturals (`limit` positive at use sites). -/
def cdiv (a b : Nat) : Nat := (a + b - 1) / b

/-! ## GET `/` — list with filters and pagination -/

/-- Query parameters of the flat list route.  The route destructures
`page = 1, limit = 20` as defaults and compares/`parseInt`s the raw values;
the model takes the resulting numeric values. -/
structure ListQuery where
  status : Option String
  priority : Option String
  search : Option String
  dueDate : Option String
  page : Int
  limit : Int

/-- The guard `if (param && !valid.includes(param))`: a supplied, non-empty value
outside the enumeration. -/
def invalidEnumParam (valid : List String) (o : Option String) : Bool :=
  match o with
  | some s => s != "" && !(valid.contains s)
  | none => false

/-- The `$or` search clause: case-insensitive regex over title OR
description. -/
def searchHit (sr : String) (t : Task) : Bool :=
  rxSearch sr t.title || rxSearch sr t.description

/-- The `$match` stage built by the list route: exact status/priority/dueDate
filters and the regex search, each included only for a truthy parameter. -/
def taskMatches (q : ListQuery) (t : Task) : Bool :=
  (match q.status with
   | some s => if s = "" then true else t.status.str == s
   | none => true)
  && (match q.priority with
      | some p => if p = "" then true else t.priority.str == p
      | none => true)
  && (match q.search with
      | some sr => if sr = "" then true else searchHit sr t
      | none => true)
  && (match q.dueDate with
      | some d => if d = "" then true else t.dueDate == d
      | none => true)

/-- The matched records in response order: `$match` then `$sort`. -/
def listMatched (tasks : List Task) (q : ListQuery) : List Task :=
  sortDesc (tasks.filter (taskMatches q))

/-- The `$skip`/`$limit` slice at offset `(p - 1) * lim`. -/
def pageSlice (l : List Task) (p lim : Nat) : List Task :=
  (l.drop ((p - 1) * lim)).take lim

/-- Pagination metadata of the flat list response. -/
structure Pagination where
  currentPage : Nat
  totalPages : Nat
  totalItems : Nat
  hasNext : Bool
  hasPrev : Bool
deriving DecidableEq, Repr

/-- Result of the flat list route. -/
inductive ListOut
  | err (status : Nat) (message : String)
  | ok (data : List Task) (pg : Pagination)
deriving DecidableEq, Repr

/-- GET `/`: validates status/priority, guards pagination
(`page < 1 || limit < 1 || limit > 100`), then returns the sorted, filtered
slice with total count and derived page metadata. -/
def listTasks (tasks : List Task) (q : ListQuery) : ListOut :=
  if invalidEnumParam validStatuses q.status then .err 400 "Invalid status value"
  else if invalidEnumParam validPriorities q.priority then .err 400 "Invalid priority value"
  else if q.page < 1 ∨ q.limit < 1 ∨ 100 < q.limit then .err 400 "Invalid pagination parameters"
  else
    let p := q.page.toNat
    let lim := q.limit.toNat
    let matched := listMatched tasks q
    let total := matched.length
    let totalPages := cdiv total lim
    .ok (pageSlice matched p lim)
      ⟨p, totalPages, total, decide (p < totalPages), decide (1 < p)⟩

/-! ## GET `/board` — per-status board view -/

/-- Query parameters of the board route (defaults `page = 1, limit = 5`). -/
structure BoardQuery where
  priority : Option String
  search : Option String
  dueDate : Option String
  page : Int
  limit : Int

/-- The non-status `$match` stage shared by the three buckets. -/
def boardMatches (q : BoardQuery) (t : Task) : Bool :=
  (match q.priority with
   | some p => if p = "" then true else t.priority.str == p
   | none => true)
  && (match q.search with
      | some sr => if sr = "" then true else searchHit sr t
      | none => true)
  && (match q.dueDate with
      | some d => if d = "" then true else t.dueDate == d
      | none => true)

/-- All stored tasks in one status bucket under the non-status filters. -/
def boardBucketAll (tasks : List Task) (q : BoardQuery) (st : Status) : List Task :=
  tasks.filter fun t => boardMatches q t && t.status == st

/-- The bucket's count pipeline (`$match` + `$count`). -/
def boardCount (tasks : List Task) (q : BoardQuery) (st : Status) : Nat :=
  (boardBucketAll tasks q st).length

/-- The bucket's fetch pipeline (`$match`, `$sort`, `$skip`, `$limit`) with
the shared page/limit. -/
def boardSlice (tasks : List Task) (q : BoardQuery) (st : Status) (p lim : Nat) : List Task :=
  pageSlice (sortDesc (boardBucketAll tasks q st)) p lim

/-- The per-status count map of the board response. -/
structure StatusCounts where
  toDo : Nat
  inProgress : Nat
  done : Nat
deriving DecidableEq, Repr

/-- Pagination metadata of the board response. -/
structure BoardPagination where
  currentPage : Nat
  totalPages : Nat
  totalItems : Nat
  hasNext : Bool
  hasPrev : Bool
  counts : StatusCounts
deriving DecidableEq, Repr

/-- Result of the board route. -/
inductive BoardOut
  | err (status : Nat) (message : String)
  | ok (data : List Task) (pg : BoardPagination)
deriving DecidableEq, Repr

/-- GET `/board`: for each of the three fixed statuses, count the bucket and
fetch its slice with the shared page/limit; `hasNext` is set when any
bucket's count exceeds `page * limit`; `totalPages` is the maximum bucket
page count; the data is the three slices concatenated in status order.
The route has no pagination guard; for `page ≥ 1, limit ≥ 1` (the only
values the theorems use) the `Int.toNat` conversions agree with the
route's arithmetic. -/
def boardTasks (tasks : List Task) (q : BoardQuery) : BoardOut :=
  if invalidEnumParam validPriorities q.priority then .err 400 "Invalid priority value"
  else
    let p := q.page.toNat
    let lim := q.limit.toNat
    let cTd := boardCount tasks q .toDo
    let cIp := boardCount tasks q .inProgress
    let cDn := boardCount tasks q .done
    let hasMore := decide (p * lim < cTd) || decide (p * lim < cIp) || decide (p * lim < cDn)
    let data := boardSlice tasks q .toDo p lim ++ boardSlice tasks q .inProgress p lim
      ++ boardSlice tasks q .done p lim
    .ok data
      ⟨p, max (max (cdiv cTd lim) (cdiv cIp lim)) (cdiv cDn lim),
        cTd + cIp + cDn, hasMore, decide (1 < p), ⟨cTd, cIp, cDn⟩⟩

/-! ## POST `/create-task` -/

/-- The create request body. -/
structure CreateBody where
  title : Option String
  description : Option String
  status : Option String
  priority : Option String
  dueDate : Option String
  transcript : Option String
deriving DecidableEq, Repr

/-- The pattern interpolated into the duplicate-check regex:
`` `^${field?.trim()}$` `` renders an absent field as the literal text
`undefined`. -/
def dupPattern (o : Option String) : String :=
  match o with
  | some s => strTrim s
  | none => "undefined"

/-- The create route's `Task.findOne` duplicate probe: some stored task
whose title and description both fully match the interpolated
case-insensitive regexes. -/
def createDupHit (tasks : List Task) (b : CreateBody) : Option Task :=
  tasks.find? fun t =>
    rxFullMatch (dupPattern b.title) t.title && rxFullMatch (dupPattern b.description) t.description

/-- The status value the create route stores: an invalid supplied status is
replaced by `To Do`, and `status || 'To Do'` supplies the default for an
absent or empty one. -/
def createStatusVal (b : CreateBody) : String :=
  match b.status with
  | none => "To Do"
  | some s => if s = "" then "To Do" else if validStatuses.contains s then s else "To Do"

/-- The create route's due-date step: `if (dueDate)` skips parsing for an
absent or empty value (leaving the stored field absent), otherwise the
shared due-date pipeline runs. -/
def createDateStep (generic : String → Option SDate) (today : SDate) (b : CreateBody) :
    Except DateError (Option String) :=
  match b.dueDate with
  | none => .ok none
  | some ds =>
    if ds = "" then .ok none
    else
      match parseDueDate generic today ds with
      | .error e => .error e
      | .ok f => .ok (some f)

/-- The default transcript `(description || title).substring(0, 1000)`;
`none` is the JavaScript crash when both are falsy and `undefined` flows
into `.substring`. -/
def createTranscriptDefault (b : CreateBody) : Option (Option String) :=
  match jsOrStr b.description b.title with
  | some s => some (some (strTake s 1000))
  | none => none

/-- The create route's transcript step: a transcript with non-empty trim is
stored trimmed, anything else takes the default. -/
def createTranscriptStep (b : CreateBody) : Option (Option String) :=
  match b.transcript with
  | some tr => if strTrim tr = "" then createTranscriptDefault b else some (some (strTrim tr))
  | none => createTranscriptDefault b

/-- The `taskData` document the create route saves. -/
def createDoc (b : CreateBody) (parsedDate : Option String) (trv : Option String) : TaskDoc :=
  { title := b.title.map strTrim
    description := b.description.map strTrim
    status := some (createStatusVal b)
    priority := b.priority
    dueDate := parsedDate
    transcript := trv }

/-- A freshly stored record from validated fields. -/
def mkTask (id : String) (now : Nat) (v : ValidTask) : Task :=
  ⟨id, v.title, v.description, v.status, v.priority, v.dueDate, v.transcript, now⟩

/-- POST `/create-task`: duplicate probe, status fixup, due-date handling,
transcript defaulting, then save with schema validation. -/
def createTask (generic : String → Option SDate) (today : SDate) (newId : String) (now : Nat)
    (tasks : List Task) (b : CreateBody) : HResp × List Task :=
  match createDupHit tasks b with
  | some _ => (⟨400, false, "Task with same title and description already exists"⟩, tasks)
  | none =>
    match createDateStep generic today b with
    | .error .invalidFormat => (⟨400, false, "Invalid due date format"⟩, tasks)
    | .error .dateInPast => (⟨400, false, "Due date must be in the future"⟩, tasks)
    | .ok parsedDate =>
      match createTranscriptStep b with
      | none => (⟨500, false, "Cannot read properties of undefined (reading 'substring')"⟩, tasks)
      | some trv =>
        match validateDoc (createDoc b parsedDate trv) with
        | .error m => (⟨400, false, m⟩, tasks)
        | .ok v => (⟨200, true, "Task created successfully"⟩, tasks ++ [mkTask newId now v])

/-! ## PUT `/update-task` -/

/-- The update request body (`_id` plus any mutable fields). -/
structure UpdateBody where
  bodyId : Option String
  title : Option String
  description : Option String
  status : Option String
  priority : Option String
  dueDate : Option String
  transcript : Option String
deriving DecidableEq, Repr

/-- The update route's duplicate probe: excludes the record being updated
(`_id: { $ne: … }`) and substitutes the task's current title/description for
a falsy body field before trimming and interpolating. -/
def updateDupHit (tasks : List Task) (uid : String) (task : Task) (b : UpdateBody) : Option Task :=
  tasks.find? fun t =>
    t.id != uid
    && rxFullMatch (strTrim (jsOr b.title task.title)) t.title
    && rxFullMatch (strTrim (jsOr b.description task.description)) t.description

/-- The update route's due-date step: an absent field leaves the body
untouched, an empty string skips parsing but is still assigned by
`Object.assign`, and a non-empty string runs the shared pipeline and is
replaced by its canonical rendering. -/
def updateDateStep (generic : String → Option SDate) (today : SDate) (b : UpdateBody) :
    Except DateError (Option String) :=
  match b.dueDate with
  | none => .ok none
  | some ds =>
    if ds = "" then .ok (some "")
    else
      match parseDueDate generic today ds with
      | .error e => .error e
      | .ok f => .ok (some f)

/-- JavaScript `Object.assign(task, req.body)` followed by save: each body field that
is present (including an empty string) overwrites the stored one. -/
def mergeDoc (task : Task) (b : UpdateBody) (newDue : Option String) : TaskDoc :=
  { title := some (b.title.getD task.title)
    description := some (b.description.getD task.description)
    status := some (b.status.getD task.status.str)
    priority := some (b.priority.getD task.priority.str)
    dueDate := some (newDue.getD task.dueDate)
    transcript := match b.transcript with | some tr => some tr | none => task.transcript }

/-- In-place replacement of the updated record's fields. -/
def applyUpdate (uid : String) (v : ValidTask) (t : Task) : Task :=
  if t.id = uid then
    { t with title := v.title, description := v.description, status := v.status,
             priority := v.priority, dueDate := v.dueDate, transcript := v.transcript }
  else t

/-- Tail of the update route after the duplicate probe: due-date handling,
merge, save with schema validation. -/
def updateFinish (generic : String → Option SDate) (today : SDate) (tasks : List Task)
    (b : UpdateBody) (uid : String) (task : Task) : HResp × List Task :=
  match updateDateStep generic today b with
  | .error .invalidFormat => (⟨400, false, "Invalid due date format"⟩, tasks)
  | .error .dateInPast => (⟨400, false, "Due date must be in the future"⟩, tasks)
  | .ok newDue =>
    match validateDoc (mergeDoc task b newDue) with
    | .error m => (⟨400, false, m⟩, tasks)
    | .ok v => (⟨200, true, ""⟩, tasks.map (applyUpdate uid v))

/-- PUT `/update-task`: id guards, lookup, duplicate probe (only when a
truthy title or description is supplied), then `updateFinish`. -/
def updateTask (generic : String → Option SDate) (today : SDate) (tasks : List Task)
    (b : UpdateBody) : HResp × List Task :=
  match b.bodyId with
  | none => (⟨400, false, "Task ID is required"⟩, tasks)
  | some uid =>
    if uid = "" then (⟨400, false, "Task ID is required"⟩, tasks)
    else if !objectIdValid uid then (⟨400, false, "Invalid task ID"⟩, tasks)
    else
      match tasks.find? fun t => t.id == uid with
      | none => (⟨404, false, "Task not found"⟩, tasks)
      | some task =>
        if jsTruthy b.title || jsTruthy b.description then
          match updateDupHit tasks uid task b with
          | some _ => (⟨400, false, "Task with same title and description already exists"⟩, tasks)
          | none => updateFinish generic today tasks b uid task
        else updateFinish generic today tasks b uid task

/-! ## GET `/view-task` and DELETE `/delete-task` -/

/-- GET `/view-task`: id guards then lookup; never mutates the store. -/
def viewTask (tasks : List Task) (qid : Option String) : HResp × List Task :=
  match qid with
  | none => (⟨400, false, "Task ID is required"⟩, tasks)
  | some id =>
    if id = "" then (⟨400, false, "Task ID is required"⟩, tasks)
    else if !objectIdValid id then (⟨400, false, "Invalid task ID"⟩, tasks)
    else
      match tasks.find? fun t => t.id == id with
      | none => (⟨404, false, "Task not found"⟩, tasks)
      | some _ => (⟨200, true, ""⟩, tasks)

/-- DELETE `/delete-task`: id guards, then `findByIdAndDelete` (ids are
unique, so removal filters the one matching record). -/
def deleteTask (tasks : List Task) (qid : Option String) : HResp × List Task :=
  match qid with
  | none => (⟨400, false, "Task ID is required"⟩, tasks)
  | some id =>
    if id = "" then (⟨400, false, "Task ID is required"⟩, tasks)
    else if !objectIdValid id then (⟨400, false, "Invalid task ID"⟩, tasks)
    else
      match tasks.find? fun t => t.id == id with
      | none => (⟨404, false, "Task not found"⟩, tasks)
      | some _ => (⟨200, true, "Task deleted successfully"⟩, tasks.filter fun t => !(t.id == id))

/-! ## Voice routes -/

/-- The JSON object fields the extraction service is expected to return
(each possibly absent or null). -/
structure ParsedFields where
  title : Option String
  description : Option String
  priority : Option String
  dueDate : Option String
deriving DecidableEq, Repr

/-- Outcome of the whole inner extraction block (client construction,
`generateContent` network call, fence stripping, `JSON.parse`).  Both
failure constructors are caught by the block's own `catch`, which applies
the local heuristic fallback; they are distinguished only so that
network-level failures can be named in theorem statements. -/
inductive ExtractOutcome
  | networkFailure
  | otherFailure
  | success (parsed : ParsedFields)
deriving DecidableEq, Repr

/-- The fallback priority scan over the lowercased transcript:
`critical` > `high` > `low`, first match wins, else `Medium`. -/
def fallbackPriority (t : String) : String :=
  if strIncludes (strLower t) "critical" then "Critical"
  else if strIncludes (strLower t) "high" then "High"
  else if strIncludes (strLower t) "low" then "Low"
  else "Medium"

/-- The four extracted fields after reconciliation. -/
structure VoiceFields where
  title : String
  description : String
  priority : String
  dueDate : Option String
deriving DecidableEq, Repr

/-- Reconciliation of the extraction outcome into task fields.  On success:
falsy title/description fall back to transcript prefixes (`titleCut` is 100
on the data route and 50 on the persist route), priority outside the enum
defaults to `Medium`, and the due date is kept only if it is truthy, not the
text `null`, strictly `DD-MM-YYYY`-parseable, and not before today.  On any
failure the local heuristic applies: title = first 100 transcript
characters, description = full transcript, scanned priority, no due date. -/
def extractFields (titleCut : Nat) (today : SDate) (t : String) (o : ExtractOutcome) :
    VoiceFields :=
  match o with
  | .success parsed =>
    let title := jsOr parsed.title (strTake t titleCut)
    let description := jsOr parsed.description t
    let priority :=
      match parsed.priority with
      | some p => if validPriorities.contains p then p else "Medium"
      | none => "Medium"
    let dd0 : Option String :=
      match parsed.dueDate with
      | some ds => if ds = "" ∨ ds = "null" then none else some ds
      | none => none
    let dueDate :=
      match dd0 with
      | some ds =>
        match parseLayoutDDMMYYYY ds with
        | some d => if dateBefore d today then none else some ds
        | none => none
      | none => none
    ⟨title, description, priority, dueDate⟩
  | _ => ⟨strTake t 100, t, fallbackPriority t, none⟩

/-- Result of the non-persisting voice route. -/
inductive VoiceDataOut
  | err (status : Nat) (message : String)
  | ok (data : VoiceFields)
deriving DecidableEq, Repr

/-- POST `/parse-voice-data`: transcript guards, extraction with fallback,
returns the structured guess without persisting. -/
def parseVoiceData (today : SDate) (o : ExtractOutcome) (transcript : Option String) :
    VoiceDataOut :=
  match transcript with
  | none => .err 400 "Transcript is required"
  | some t =>
    if strTrim t = "" then .err 400 "Transcript is required"
    else if 5000 < t.length then .err 400 "Transcript too long"
    else .ok (extractFields 100 today t o)

/-- The document POST `/parse-voice` saves: trimmed extracted
title/description, fixed status `To Do`, extracted priority and due date,
and the raw transcript trimmed. -/
def voiceDoc (today : SDate) (o : ExtractOutcome) (t : String) : TaskDoc :=
  { title := some (strTrim (extractFields 50 today t o).title)
    description := some (strTrim (extractFields 50 today t o).description)
    status := some "To Do"
    priority := some (extractFields 50 today t o).priority
    dueDate := (extractFields 50 today t o).dueDate
    transcript := some (strTrim t) }

/-- POST `/parse-voice`: transcript guards, extraction with fallback, then
`new Task(...)` and save.  The route's outer catch maps errors whose cause
is `ENOTFOUND` or whose message contains `fetch failed` to 503 and anything
else to 500, but every failure of the extraction block is already consumed
by the inner catch (the whole extraction, from client construction to
`JSON.parse`, sits inside the inner try), so the only errors the model can
produce after the guards are save-time `ValidationError`s, mapped to 400. -/
def parseVoice (today : SDate) (o : ExtractOutcome) (newId : String) (now : Nat)
    (tasks : List Task) (transcript : Option String) : HResp × List Task :=
  match transcript with
  | none => (⟨400, false, "Transcript is required"⟩, tasks)
  | some t =>
    if strTrim t = "" then (⟨400, false, "Transcript is required"⟩, tasks)
    else if 5000 < t.length then (⟨400, false, "Transcript too long"⟩, tasks)
    else
      match validateDoc (voiceDoc today o t) with
      | .error m => (⟨400, false, m⟩, tasks)
      | .ok v => (⟨200, true, "Task created from voice input"⟩, tasks ++ [mkTask newId now v])

/-! ## Concrete fixtures used by closed statements -/

/-- A fixed "today" for closed statements: 11 October 2026. -/
def sampleDate : SDate := ⟨2026, 10, 11⟩

/-- A generic date parser that accepts nothing (the abstract `moment(string)`
collaborator is irrelevant to the closed statements, which only use
pattern-shaped dates). -/
def noGeneric : String → Option SDate := fun _ => none

/-- A syntactically valid 24-hex-character object id. -/
def hexId24 : String := "ffffffffffffffffffffffff"

/-- A stored task used by the update-path counterexamples. -/
def storedTask : Task :=
  ⟨"aaaaaaaaaaaaaaaaaaaaaaaa", "Original title here", "Original description here",
    .inProgress, .medium, "31-12-2099", none, 0⟩

/-- A stored task whose title differs from the probe pattern at one
character position (`X` against the pattern's `.`). -/
def storedDotTask : Task :=
  ⟨"bbbbbbbbbbbbbbbbbbbbbbbb", "migrate aXi data layer", "rollout plan for the week",
    .toDo, .high, "31-12-2099", none, 0⟩

/-- A create body whose title contains a `.` regex metacharacter. -/
def dotCreateBody : CreateBody :=
  ⟨some "migrate a.i data layer", some "rollout plan for the week",
    none, some "High", some "31-12-2099", some "valid transcript here"⟩

/-- An update body that only pads the title with whitespace. -/
def paddedTitleBody : UpdateBody :=
  ⟨some storedTask.id, some " Updated padded title  ", none, none, none, none, none⟩

/-- An update body that only sets a status outside the enumeration. -/
def badStatusBody : UpdateBody :=
  ⟨some storedTask.id, none, none, some "Archived", none, none, none⟩

/-- A sample stored task for the pagination fixtures. -/
def pagedTask (i : Nat) (st : Status) : Task :=
  ⟨"", "pagination sample task", "pagination sample item", st, .low, "31-12-2099", none, i⟩

/-- Five stored tasks across the three statuses. -/
def pagedTasks : List Task :=
  [pagedTask 1 .toDo, pagedTask 2 .toDo, pagedTask 3 .inProgress,
    pagedTask 4 .done, pagedTask 5 .toDo]

/-- A filterless list query asking for page 3 with limit 2. -/
def listQueryW : ListQuery := ⟨none, none, none, none, 3, 2⟩

/-- A filterless board query asking for page 1 with limit 2. -/
def boardQueryW : BoardQuery := ⟨none, none, none, 1, 2⟩

/-- A create body with no transcript, used by the transcript-default
witness. -/
def createBody9 : CreateBody :=
  ⟨some "Culinary event plan", some "Prepare the gear list now", none, some "Low",
    some "31-12-2099", none⟩

/-- An update body with no fields at all. -/
def emptyUpdateBody : UpdateBody := ⟨none, none, none, none, none, none, none⟩

/-! # Helper lemmas -/

/-- A document without a due date never validates: the schema marks
`dueDate` required. -/
theorem validateDoc_error_of_dueDate_none (d : TaskDoc) (h : d.dueDate = none) :
    ∃ m, validateDoc d = .error m := by
  unfold validateDoc
  rw [h]
  cases hT : checkTitle d.title
  · exact ⟨_, rfl⟩
  · cases hD : checkDescription d.description
    · exact ⟨_, rfl⟩
    · cases hS : checkStatus d.status
      · exact ⟨_, rfl⟩
      · cases hP : checkPriority d.priority
        · exact ⟨_, rfl⟩
        · exact ⟨_, rfl⟩

/-- A successful title check returns the supplied string. -/
theorem checkTitle_ok (o : Option String) (t : String) (h : checkTitle o = .ok t) :
    o = some t := by
  cases o with
  | none => simp [checkTitle] at h
  | some x =>
    unfold checkTitle at h
    repeat' split at h
    all_goals simp_all

/-- A successful description check returns the supplied string. -/
theorem checkDescription_ok (o : Option String) (t : String)
    (h : checkDescription o = .ok t) : o = some t := by
  cases o with
  | none => simp [checkDescription] at h
  | some x =>
    unfold checkDescription at h
    repeat' split at h
    all_goals simp_all

/-- A successful status check on a present value parses it. -/
theorem checkStatus_ok_some (s : String) (st : Status)
    (h : checkStatus (some s) = .ok st) : parseStatus s = some st := by
  unfold checkStatus at h
  repeat' split at h
  all_goals simp_all

/-- A successful priority check on a present value parses it. -/
theorem checkPriority_ok_some (p : String) (pr : Priority)
    (h : checkPriority (some p) = .ok pr) : parsePriority p = some pr := by
  unfold checkPriority at h
  repeat' split at h
  all_goals simp_all

/-- A successful due-date check returns the supplied string. -/
theorem checkDueDate_ok (o : Option String) (d : String)
    (h : checkDueDate o = .ok d) : o = some d := by
  cases o with
  | none => simp [checkDueDate] at h
  | some x =>
    unfold checkDueDate at h
    repeat' split at h
    all_goals simp_all

/-- A successful transcript check returns the supplied value. -/
theorem checkTranscript_ok (o tr : Option String)
    (h : checkTranscript o = .ok tr) : o = tr := by
  cases o with
  | none =>
    unfold checkTranscript at h
    simp_all
  | some x =>
    unfold checkTranscript at h
    repeat' split at h
    all_goals simp_all

/-- A document that validates stores exactly its supplied field values
(status and priority via their enum parses). -/
theorem validateDoc_ok (d : TaskDoc) (v : ValidTask) (h : validateDoc d = .ok v) :
    d.title = some v.title ∧ d.description = some v.description
    ∧ checkStatus d.status = .ok v.status ∧ checkPriority d.priority = .ok v.priority
    ∧ d.dueDate = some v.dueDate ∧ d.transcript = v.transcript := by
  unfold validateDoc at h
  cases hT : checkTitle d.title <;> rw [hT] at h
  case error => simp at h
  case ok t =>
  cases hD : checkDescription d.description <;> rw [hD] at h
  case error => simp at h
  case ok ds =>
  cases hS : checkStatus d.status <;> rw [hS] at h
  case error => simp at h
  case ok st =>
  cases hP : checkPriority d.priority <;> rw [hP] at h
  case error => simp at h
  case ok pr =>
  cases hDD : checkDueDate d.dueDate <;> rw [hDD] at h
  case error => simp at h
  case ok dd =>
  cases hTR : checkTranscript d.transcript <;> rw [hTR] at h
  case error => simp at h
  case ok tr =>
  injection h with h2
  subst h2
  exact ⟨checkTitle_ok _ _ hT, checkDescription_ok _ _ hD, rfl, rfl,
    checkDueDate_ok _ _ hDD, checkTranscript_ok _ _ hTR⟩

/-- Shape of a successful create: all intermediate steps succeeded and the
new record is appended. -/
theorem createTask_success_shape (g : String → Option SDate) (today : SDate) (nid : String)
    (now : Nat) (tasks : List Task) (b : CreateBody)
    (h : (createTask g today nid now tasks b).1.success = true) :
    ∃ parsedDate trv v, createDupHit tasks b = none
      ∧ createDateStep g today b = .ok parsedDate
      ∧ createTranscriptStep b = some trv
      ∧ validateDoc (createDoc b parsedDate trv) = .ok v
      ∧ createTask g today nid now tasks b
          = (⟨200, true, "Task created successfully"⟩, tasks ++ [mkTask nid now v]) := by
  unfold createTask at h ⊢
  cases hdup : createDupHit tasks b
  case some => simp [hdup] at h
  case none =>
  simp only [hdup] at h
  cases hdate : createDateStep g today b
  case error e => cases e <;> simp [hdate] at h
  case ok pd =>
  simp only [hdate] at h
  cases htr : createTranscriptStep b
  case none => simp [htr] at h
  case some trv =>
  simp only [htr] at h
  cases hval : validateDoc (createDoc b pd trv)
  case error => simp [hval] at h
  case ok v => exact ⟨pd, trv, v, rfl, rfl, rfl, hval, by simp only [hval]⟩

/-- Shape of a successful update tail: date step and validation succeeded
and the matching record is replaced in place. -/
theorem updateFinish_success_shape (g : String → Option SDate) (today : SDate)
    (tasks : List Task) (b : UpdateBody) (uid : String) (task : Task)
    (h : (updateFinish g today tasks b uid task).1.success = true) :
    ∃ newDue v, updateDateStep g today b = .ok newDue
      ∧ validateDoc (mergeDoc task b newDue) = .ok v
      ∧ updateFinish g today tasks b uid task
          = (⟨200, true, ""⟩, tasks.map (applyUpdate uid v)) := by
  unfold updateFinish at h ⊢
  cases hdate : updateDateStep g today b
  case error e => cases e <;> simp [hdate] at h
  case ok nd =>
  simp only [hdate] at h
  cases hval : validateDoc (mergeDoc task b nd)
  case error => simp [hval] at h
  case ok v => exact ⟨nd, v, rfl, hval, by simp only [hval]⟩

/-- Shape of a successful update head: id guards and lookup succeeded and
the route continues with `updateFinish`. -/
theorem updateTask_success_shape (g : String → Option SDate) (today : SDate)
    (tasks : List Task) (b : UpdateBody)
    (h : (updateTask g today tasks b).1.success = true) :
    ∃ uid task, b.bodyId = some uid
      ∧ tasks.find? (fun t => t.id == uid) = some task
      ∧ updateTask g today tasks b = updateFinish g today tasks b uid task := by
  unfold updateTask at h ⊢
  cases hb : b.bodyId
  case none => simp [hb] at h
  case some uid =>
  simp only [hb] at h
  by_cases he : uid = ""
  · simp [if_pos he] at h
  · rw [if_neg he] at h
    cases ho : objectIdValid uid with
    | false => simp [ho] at h
    | true =>
      simp only [ho, Bool.not_true, Bool.false_eq_true, if_false] at h
      cases hf : tasks.find? (fun t => t.id == uid) with
      | none => simp [hf] at h
      | some task =>
        simp only [hf] at h
        by_cases ht : (jsTruthy b.title || jsTruthy b.description) = true
        · rw [if_pos ht] at h
          cases hdup : updateDupHit tasks uid task b with
          | some val => simp [hdup] at h
          | none =>
            refine ⟨uid, task, rfl, hf, ?_⟩
            simp only [if_neg he, ho, Bool.not_true, Bool.false_eq_true, if_false, hf,
              if_pos ht, hdup]
        · rw [if_neg ht] at h
          refine ⟨uid, task, rfl, hf, ?_⟩
          simp only [if_neg he, ho, Bool.not_true, Bool.false_eq_true, if_false, hf, if_neg ht]

/-- Shape of a successful voice persist: the guards and validation succeeded
and the new record is appended. -/
theorem parseVoice_success_shape (today : SDate) (o : ExtractOutcome) (nid : String)
    (now : Nat) (tasks : List Task) (t : String)
    (h : (parseVoice today o nid now tasks (some t)).1.success = true) :
    ∃ v, validateDoc (voiceDoc today o t) = .ok v
      ∧ parseVoice today o nid now tasks (some t)
          = (⟨200, true, "Task created from voice input"⟩, tasks ++ [mkTask nid now v]) := by
  unfold parseVoice at h ⊢
  by_cases h1 : strTrim t = ""
  · simp [h1] at h
  · by_cases h2 : 5000 < t.length
    · simp only [if_neg h1, if_pos h2] at h
      simp at h
    · simp only [if_neg h1, if_neg h2] at h
      cases hval : validateDoc (voiceDoc today o t) with
      | error m => simp [hval] at h
      | ok v =>
        refine ⟨v, rfl, ?_⟩
        simp only [if_neg h1, if_neg h2, hval]

/-- With the duplicate probe missing, `create-task` proceeds to the date,
transcript and validation steps. -/
theorem createTask_eq (g : String → Option SDate) (today : SDate) (nid : String) (now : Nat)
    (tasks : List Task) (b : CreateBody) (hdup : createDupHit tasks b = none) :
    createTask g today nid now tasks b
      = match createDateStep g today b with
        | .error .invalidFormat => (⟨400, false, "Invalid due date format"⟩, tasks)
        | .error .dateInPast => (⟨400, false, "Due date must be in the future"⟩, tasks)
        | .ok parsedDate =>
          match createTranscriptStep b with
          | none =>
            (⟨500, false, "Cannot read properties of undefined (reading 'substring')"⟩, tasks)
          | some trv =>
            match validateDoc (createDoc b parsedDate trv) with
            | .error m => (⟨400, false, m⟩, tasks)
            | .ok v => (⟨200, true, "Task created successfully"⟩, tasks ++ [mkTask nid now v]) := by
  unfold createTask
  simp only [hdup]

/-- With the id guards passed, the record found and the duplicate probe
missing, `update-task` proceeds to `updateFinish`. -/
theorem updateTask_eq_finish (g : String → Option SDate) (today : SDate) (tasks : List Task)
    (b : UpdateBody) (uid : String) (task : Task)
    (hid : b.bodyId = some uid) (hne : uid ≠ "") (hov : objectIdValid uid = true)
    (hf : tasks.find? (fun t => t.id == uid) = some task)
    (hdup : updateDupHit tasks uid task b = none) :
    updateTask g today tasks b = updateFinish g today tasks b uid task := by
  unfold updateTask
  simp only [hid, if_neg hne, hov, Bool.not_true, Bool.false_eq_true, if_false, hf, hdup,
    ite_self]

/-- The create route's date step on a supplied non-empty due date is the
shared pipeline. -/
theorem createDateStep_some (g : String → Option SDate) (today : SDate) (b : CreateBody)
    (ds : String) (h : b.dueDate = some ds) (hne : ds ≠ "") :
    createDateStep g today b
      = match parseDueDate g today ds with
        | .error e => .error e
        | .ok f => .ok (some f) := by
  unfold createDateStep
  simp only [h, if_neg hne]

/-- The update route's date step on a supplied non-empty due date is the
shared pipeline. -/
theorem updateDateStep_some (g : String → Option SDate) (today : SDate) (b : UpdateBody)
    (ds : String) (h : b.dueDate = some ds) (hne : ds ≠ "") :
    updateDateStep g today b
      = match parseDueDate g today ds with
        | .error e => .error e
        | .ok f => .ok (some f) := by
  unfold updateDateStep
  simp only [h, if_neg hne]

/-! # Claim theorems -/

/-- C1 (counterexample): with a transcript accepted by the length check, a
network failure reaching the extraction service on POST `/tasks/parse-voice`
does not produce 503: the inner catch applies the heuristic fallback and the
subsequent save fails schema validation (no due date), so the request ends
with 400, refuting the claimed `ExternalServiceUnreachable`/503 outcome. -/
theorem C1_counterexample :
    parseVoice sampleDate .networkFailure hexId24 0 [] (some "review the code changes")
      = (⟨400, false, "Due date is required"⟩, [])
    ∧ (parseVoice sampleDate .networkFailure hexId24 0 []
        (some "review the code changes")).1.status ≠ 503 := by
  have h : parseVoice sampleDate .networkFailure hexId24 0 [] (some "review the code changes")
      = (⟨400, false, "Due date is required"⟩, []) := rfl
  refine ⟨h, ?_⟩
  rw [h]
  decide

/-- C1 (amended): a network failure reaching the extraction service on the
persist-on-parse path is consumed by the extraction block's own catch, which
applies the local fallback; the request never fails with 503 — it fails with
400 instead, because the fallback leaves the due date absent and the schema
requires one — and the stored tasks are unchanged. -/
theorem C1_network_failure_swallowed (today : SDate) (newId : String) (now : Nat)
    (tasks : List Task) (t : String) (h1 : strTrim t ≠ "") (h2 : t.length ≤ 5000) :
    (parseVoice today .networkFailure newId now tasks (some t)).1.status = 400
    ∧ (parseVoice today .networkFailure newId now tasks (some t)).1.status ≠ 503
    ∧ (parseVoice today .networkFailure newId now tasks (some t)).2 = tasks := by
  obtain ⟨m, hm⟩ := validateDoc_error_of_dueDate_none (voiceDoc today .networkFailure t) rfl
  have hlen : ¬ (5000 < t.length) := by omega
  refine ⟨?_, ?_, ?_⟩ <;> simp only [parseVoice, if_neg h1, if_neg hlen, hm]
  decide

/-- Witness for `C1_network_failure_swallowed` at a concrete transcript. -/
theorem C1_witness :
    strTrim "prepare the slides for review" ≠ ""
    ∧ "prepare the slides for review".length ≤ 5000
    ∧ (parseVoice sampleDate .networkFailure hexId24 0 []
        (some "prepare the slides for review")).1.status = 400
    ∧ (parseVoice sampleDate .networkFailure hexId24 0 []
        (some "prepare the slides for review")).1.status ≠ 503
    ∧ (parseVoice sampleDate .networkFailure hexId24 0 []
        (some "prepare the slides for review")).2 = [] :=
  ⟨by decide, by decide,
    C1_network_failure_swallowed sampleDate hexId24 0 [] "prepare the slides for review"
      (by decide) (by decide)⟩

/-- C2 (code bug, evaluated at the failing input): for the transcript
`"critical database migration work"` under a failed extraction, the
non-persisting route does return the exact heuristic fallback — title = the
first 100 transcript characters (here the whole transcript), description =
the transcript, priority `Critical`, no due date — but the persist-on-parse
route does not return success: the fallback's absent due date violates the
schema's required `dueDate`, so the request fails with 400 and nothing is
stored. -/
theorem C2_failing_eval :
    parseVoiceData sampleDate .otherFailure (some "critical database migration work")
      = .ok ⟨"critical database migration work", "critical database migration work",
          "Critical", none⟩
    ∧ parseVoice sampleDate .otherFailure hexId24 0 []
        (some "critical database migration work")
      = (⟨400, false, "Due date is required"⟩, []) := by
  constructor
  · rfl
  · rfl

/-- C3 (counterexample): the update path stores title/description exactly as
supplied.  Updating `storedTask` with the padded title `" Updated padded
title  "` succeeds and stores the title with its leading and trailing
whitespace, refuting the invariant that every completed write path stores
trimmed title/description. -/
theorem C3_counterexample :
    (updateTask noGeneric sampleDate [storedTask] paddedTitleBody).1.success = true
    ∧ ((updateTask noGeneric sampleDate [storedTask] paddedTitleBody).2.map Task.title)
        = [" Updated padded title  "]
    ∧ strTrim " Updated padded title  " ≠ " Updated padded title  " :=
  ⟨rfl, rfl, by decide⟩

/-- C3 (amended): after a completed `create-task` write the stored title and
description are the trims of the supplied ones, and likewise after a
completed `parse-voice` write (trims of the extracted fields); but a
completed `update-task` write stores a supplied title and a supplied
description verbatim, untrimmed (only the duplicate probe trims them). -/
theorem C3_trim_amended
    (g : String → Option SDate) (today : SDate) (cid vid : String) (cnow vnow : Nat)
    (tasksC tasksV tasksU : List Task) (cb : CreateBody) (o : ExtractOutcome) (vt : String)
    (ub : UpdateBody) (uid bt bd : String)
    (hc : (createTask g today cid cnow tasksC cb).1.success = true)
    (hv : (parseVoice today o vid vnow tasksV (some vt)).1.success = true)
    (hu : (updateTask g today tasksU ub).1.success = true)
    (hub : ub.bodyId = some uid) (hbt : ub.title = some bt)
    (hbd : ub.description = some bd) :
    (∃ tk bt' bd', (createTask g today cid cnow tasksC cb).2 = tasksC ++ [tk]
      ∧ cb.title = some bt' ∧ cb.description = some bd'
      ∧ tk.title = strTrim bt' ∧ tk.description = strTrim bd')
    ∧ (∃ tk, (parseVoice today o vid vnow tasksV (some vt)).2 = tasksV ++ [tk]
      ∧ tk.title = strTrim (extractFields 50 today vt o).title
      ∧ tk.description = strTrim (extractFields 50 today vt o).description)
    ∧ (∀ tk ∈ (updateTask g today tasksU ub).2, tk.id = uid →
        tk.title = bt ∧ tk.description = bd) := by
  refine ⟨?_, ?_, ?_⟩
  · obtain ⟨pd, trv, v, hdup, hdate, htr, hval, heq⟩ :=
      createTask_success_shape g today cid cnow tasksC cb hc
    obtain ⟨hti, hde, -, -, -, -⟩ := validateDoc_ok _ _ hval
    simp only [createDoc] at hti hde
    cases hcb : cb.title with
    | none => rw [hcb] at hti; simp at hti
    | some bt' =>
      cases hcd : cb.description with
      | none => rw [hcd] at hde; simp at hde
      | some bd' =>
        rw [hcb] at hti
        rw [hcd] at hde
        simp only [Option.map_some'] at hti hde
        refine ⟨mkTask cid cnow v, bt', bd', by rw [heq], rfl, rfl, ?_, ?_⟩
        · exact (Option.some.inj hti).symm
        · exact (Option.some.inj hde).symm
  · obtain ⟨v, hval, heq⟩ := parseVoice_success_shape today o vid vnow tasksV vt hv
    obtain ⟨hti, hde, -, -, -, -⟩ := validateDoc_ok _ _ hval
    simp only [voiceDoc] at hti hde
    refine ⟨mkTask vid vnow v, by rw [heq], ?_, ?_⟩
    · exact (Option.some.inj hti).symm
    · exact (Option.some.inj hde).symm
  · obtain ⟨uid', task, hub', hf, heq⟩ := updateTask_success_shape g today tasksU ub hu
    rw [hub] at hub'
    obtain rfl : uid = uid' := Option.some.inj hub'
    rw [heq] at hu
    obtain ⟨nd, v, hdate, hval, heq2⟩ := updateFinish_success_shape g today tasksU ub uid task hu
    obtain ⟨hti, hde, -, -, -, -⟩ := validateDoc_ok _ _ hval
    simp only [mergeDoc, hbt, hbd, Option.getD_some] at hti hde
    have hvt : v.title = bt := (Option.some.inj hti).symm
    have hvd : v.description = bd := (Option.some.inj hde).symm
    rw [heq, heq2]
    intro tk htk hid
    obtain ⟨a, _, rfl⟩ := List.mem_map.1 htk
    unfold applyUpdate at hid ⊢
    by_cases ha : a.id = uid
    · rw [if_pos ha]
      exact ⟨hvt, hvd⟩
    · rw [if_neg ha] at hid
      exact absurd hid ha

/-- Witness for `C3_trim_amended` at concrete successful writes on all three
paths. -/
theorem C3_witness :
    (createTask noGeneric sampleDate "cccccccccccccccccccccccc" 3 []
      ⟨some "  Quarterly report prep ", some "Prepare the quarterly report now",
        none, some "High", some "31-12-2099", some "valid transcript here"⟩).1.success = true
    ∧ (parseVoice sampleDate
        (.success ⟨some "Review the uploaded code", some "Review the uploaded code carefully",
          some "High", some "25-12-2099"⟩)
        "dddddddddddddddddddddddd" 4 [] (some "please review the uploaded code")).1.success = true
    ∧ (updateTask noGeneric sampleDate [storedTask]
        ⟨some storedTask.id, some " Refreshed padded title ",
          some " Refreshed padded description  ", none, none, none, none⟩).1.success = true
    ∧ ((∃ tk bt' bd',
          (createTask noGeneric sampleDate "cccccccccccccccccccccccc" 3 []
            ⟨some "  Quarterly report prep ", some "Prepare the quarterly report now",
              none, some "High", some "31-12-2099", some "valid transcript here"⟩).2 = [] ++ [tk]
          ∧ (some "  Quarterly report prep " : Option String) = some bt'
          ∧ (some "Prepare the quarterly report now" : Option String) = some bd'
          ∧ tk.title = strTrim bt' ∧ tk.description = strTrim bd')
      ∧ (∃ tk,
          (parseVoice sampleDate
            (.success ⟨some "Review the uploaded code",
              some "Review the uploaded code carefully", some "High", some "25-12-2099"⟩)
            "dddddddddddddddddddddddd" 4 [] (some "please review the uploaded code")).2
              = [] ++ [tk]
          ∧ tk.title = strTrim (extractFields 50 sampleDate "please review the uploaded code"
              (.success ⟨some "Review the uploaded code",
                some "Review the uploaded code carefully", some "High",
                some "25-12-2099"⟩)).title
          ∧ tk.description = strTrim (extractFields 50 sampleDate
              "please review the uploaded code"
              (.success ⟨some "Review the uploaded code",
                some "Review the uploaded code carefully", some "High",
                some "25-12-2099"⟩)).description)
      ∧ (∀ tk ∈ (updateTask noGeneric sampleDate [storedTask]
            ⟨some storedTask.id, some " Refreshed padded title ",
              some " Refreshed padded description  ", none, none, none, none⟩).2,
          tk.id = storedTask.id →
            tk.title = " Refreshed padded title "
            ∧ tk.description = " Refreshed padded description  ")) :=
  ⟨rfl, rfl, rfl,
    C3_trim_amended noGeneric sampleDate "cccccccccccccccccccccccc" "dddddddddddddddddddddddd"
      3 4 [] [] [storedTask]
      ⟨some "  Quarterly report prep ", some "Prepare the quarterly report now",
        none, some "High", some "31-12-2099", some "valid transcript here"⟩
      (.success ⟨some "Review the uploaded code", some "Review the uploaded code carefully",
        some "High", some "25-12-2099"⟩)
      "please review the uploaded code"
      ⟨some storedTask.id, some " Refreshed padded title ",
        some " Refreshed padded description  ", none, none, none, none⟩
      storedTask.id " Refreshed padded title " " Refreshed padded description  "
      rfl rfl rfl rfl rfl rfl⟩

/-- C4: the shared due-date handling of the create and update write paths.
A string of the literal shape `DD-MM-YYYY` is parsed with exactly that
layout (`"15-13-2099"` is rejected as invalid format); any other string
goes through the generic date parse; an unparseable date fails with
`InvalidDateFormat` (400), a date strictly before the current day fails
with `DateInPast` (400, e.g. `"01-01-2000"`), and a valid date is stored
re-rendered in canonical `DD-MM-YYYY` form (`"31-12-2099"` is accepted and
stored as `"31-12-2099"`), on both handlers. -/
theorem C4_date_rules (g : String → Option SDate) (today : SDate)
    (hPast : dateBefore ⟨2000, 1, 1⟩ today = true)
    (hFut : dateBefore ⟨2099, 12, 31⟩ today = false) :
    parseDueDate g today "15-13-2099" = .error .invalidFormat
    ∧ parseDueDate g today "01-01-2000" = .error .dateInPast
    ∧ parseDueDate g today "31-12-2099" = .ok "31-12-2099"
    ∧ (∀ s, matchesDDMMYYYY s = true →
        parseDueDate g today s
          = match parseLayoutDDMMYYYY s with
            | none => .error .invalidFormat
            | some d => if dateBefore d today then .error .dateInPast
                else .ok (formatDDMMYYYY d))
    ∧ (∀ s, matchesDDMMYYYY s = false →
        parseDueDate g today s
          = match g s with
            | none => .error .invalidFormat
            | some d => if dateBefore d today then .error .dateInPast
                else .ok (formatDDMMYYYY d))
    ∧ (∀ s out, parseDueDate g today s = .ok out →
        ∃ d, out = formatDDMMYYYY d ∧ dateBefore d today = false)
    ∧ (∀ nid now tasks b ds, b.dueDate = some ds → ds ≠ "" → createDupHit tasks b = none →
        (parseDueDate g today ds = .error .invalidFormat →
          createTask g today nid now tasks b = (⟨400, false, "Invalid due date format"⟩, tasks))
        ∧ (parseDueDate g today ds = .error .dateInPast →
          createTask g today nid now tasks b
            = (⟨400, false, "Due date must be in the future"⟩, tasks))
        ∧ (∀ f, parseDueDate g today ds = .ok f →
            (createTask g today nid now tasks b).1.success = true →
            ∃ tk, (createTask g today nid now tasks b).2 = tasks ++ [tk] ∧ tk.dueDate = f))
    ∧ (∀ tasks b uid task ds, b.bodyId = some uid → uid ≠ "" → objectIdValid uid = true →
        tasks.find? (fun t => t.id == uid) = some task →
        updateDupHit tasks uid task b = none →
        b.dueDate = some ds → ds ≠ "" →
        (parseDueDate g today ds = .error .invalidFormat →
          updateTask g today tasks b = (⟨400, false, "Invalid due date format"⟩, tasks))
        ∧ (parseDueDate g today ds = .error .dateInPast →
          updateTask g today tasks b = (⟨400, false, "Due date must be in the future"⟩, tasks))
        ∧ (∀ f, parseDueDate g today ds = .ok f →
            (updateTask g today tasks b).1.success = true →
            ∀ tk ∈ (updateTask g today tasks b).2, tk.id = uid → tk.dueDate = f)) := by
  refine ⟨rfl, ?_, ?_, ?_, ?_, ?_, ?_, ?_⟩
  · have e2 : parseDueDate g today "01-01-2000"
        = if dateBefore ⟨2000, 1, 1⟩ today then .error .dateInPast
          else .ok (formatDDMMYYYY ⟨2000, 1, 1⟩) := rfl
    rw [e2, if_pos hPast]
  · have e3 : parseDueDate g today "31-12-2099"
        = if dateBefore ⟨2099, 12, 31⟩ today then .error .dateInPast
          else .ok (formatDDMMYYYY ⟨2099, 12, 31⟩) := rfl
    rw [e3, if_neg (fun hcon => Bool.false_ne_true (hFut ▸ hcon))]
    rfl
  · intro s hs
    unfold parseDueDate
    rw [hs]
    cases parseLayoutDDMMYYYY s <;> rfl
  · intro s hs
    unfold parseDueDate
    rw [hs]
    cases g s <;> rfl
  · intro s out h
    unfold parseDueDate at h
    cases hq : (if matchesDDMMYYYY s then parseLayoutDDMMYYYY s else g s) with
    | none => simp [hq] at h
    | some d =>
      simp only [hq] at h
      by_cases hb : dateBefore d today = true
      · rw [if_pos hb] at h
        simp at h
      · rw [if_neg hb] at h
        refine ⟨d, (Except.ok.inj h).symm, ?_⟩
        simp only [Bool.not_eq_true] at hb
        exact hb
  · intro nid now tasks b ds hds hne hdup
    have hstep := createDateStep_some g today b ds hds hne
    refine ⟨?_, ?_, ?_⟩
    · intro herr
      rw [createTask_eq g today nid now tasks b hdup, hstep, herr]
    · intro herr
      rw [createTask_eq g today nid now tasks b hdup, hstep, herr]
    · intro f hok hsucc
      obtain ⟨pd, trv, v, -, hdate, htr, hval, heq⟩ :=
        createTask_success_shape _ _ _ _ _ _ hsucc
      rw [hstep, hok] at hdate
      obtain rfl : some f = pd := Except.ok.inj hdate
      obtain ⟨-, -, -, -, hdd, -⟩ := validateDoc_ok _ _ hval
      simp only [createDoc] at hdd
      refine ⟨mkTask nid now v, by rw [heq], ?_⟩
      exact (Option.some.inj hdd).symm
  · intro tasks b uid task ds hid hne0 hov hf hdup hds hne
    have hrun := updateTask_eq_finish g today tasks b uid task hid hne0 hov hf hdup
    have hstep := updateDateStep_some g today b ds hds hne
    refine ⟨?_, ?_, ?_⟩
    · intro herr
      rw [hrun]
      unfold updateFinish
      rw [hstep, herr]
    · intro herr
      rw [hrun]
      unfold updateFinish
      rw [hstep, herr]
    · intro f hok hsucc
      rw [hrun] at hsucc
      obtain ⟨nd, v, hdate, hval, heq2⟩ := updateFinish_success_shape _ _ _ _ _ _ hsucc
      rw [hstep, hok] at hdate
      obtain rfl : some f = nd := Except.ok.inj hdate
      obtain ⟨-, -, -, -, hdd, -⟩ := validateDoc_ok _ _ hval
      simp only [mergeDoc, Option.getD_some] at hdd
      have hvd : v.dueDate = f := (Option.some.inj hdd).symm
      rw [hrun, heq2]
      intro tk htk hid2
      obtain ⟨a, -, rfl⟩ := List.mem_map.1 htk
      unfold applyUpdate at hid2 ⊢
      by_cases ha : a.id = uid
      · rw [if_pos ha]
        exact hvd
      · rw [if_neg ha] at hid2
        exact absurd hid2 ha

/-- Witness for `C4_date_rules` at the fixed sample date. -/
theorem C4_witness :
    dateBefore ⟨2000, 1, 1⟩ sampleDate = true
    ∧ dateBefore ⟨2099, 12, 31⟩ sampleDate = false
    ∧ parseDueDate noGeneric sampleDate "15-13-2099" = .error .invalidFormat :=
  ⟨by decide, by decide, (C4_date_rules noGeneric sampleDate (by decide) (by decide)).1⟩

/-- Every title-check failure message. -/
theorem checkTitle_error (o : Option String) (m : String) (h : checkTitle o = .error m) :
    m = "Title is required" ∨ m = "Title must be at least 10 characters"
      ∨ m = "Title must not exceed 250 characters" := by
  cases o with
  | none =>
    unfold checkTitle at h
    injection h with h2
    exact .inl h2.symm
  | some x =>
    unfold checkTitle at h
    repeat' split at h
    all_goals first
      | (injection h; done)
      | (injection h with h2; subst h2; decide)

/-- Every description-check failure message. -/
theorem checkDescription_error (o : Option String) (m : String)
    (h : checkDescription o = .error m) :
    m = "Description is required" ∨ m = "Description must be at least 10 characters"
      ∨ m = "Description must not exceed 500 characters" := by
  cases o with
  | none =>
    unfold checkDescription at h
    injection h with h2
    exact .inl h2.symm
  | some x =>
    unfold checkDescription at h
    repeat' split at h
    all_goals first
      | (injection h; done)
      | (injection h with h2; subst h2; decide)

/-- Every status-check failure message. -/
theorem checkStatus_error (o : Option String) (m : String) (h : checkStatus o = .error m) :
    m = "Status must be To Do, In Progress, or Done" := by
  cases o with
  | none => simp [checkStatus] at h
  | some s =>
    unfold checkStatus at h
    repeat' split at h
    all_goals first
      | (injection h; done)
      | (injection h with h2; exact h2.symm)

/-- Every priority-check failure message. -/
theorem checkPriority_error (o : Option String) (m : String) (h : checkPriority o = .error m) :
    m = "Priority is required" ∨ m = "Priority must be Low, Medium, High, or Critical" := by
  cases o with
  | none =>
    unfold checkPriority at h
    injection h with h2
    exact .inl h2.symm
  | some p =>
    unfold checkPriority at h
    repeat' split at h
    all_goals first
      | (injection h; done)
      | (injection h with h2; subst h2; decide)

/-- Every due-date-check failure message. -/
theorem checkDueDate_error (o : Option String) (m : String) (h : checkDueDate o = .error m) :
    m = "Due date is required" := by
  cases o with
  | none =>
    unfold checkDueDate at h
    injection h with h2
    exact h2.symm
  | some d =>
    unfold checkDueDate at h
    repeat' split at h
    all_goals first
      | (injection h; done)
      | (injection h with h2; subst h2; decide)

/-- Every transcript-check failure message. -/
theorem checkTranscript_error (o : Option String) (m : String)
    (h : checkTranscript o = .error m) :
    m = "Transcript must be at least 10 characters"
      ∨ m = "Transcript must not exceed 1000 characters" := by
  cases o with
  | none => simp [checkTranscript] at h
  | some x =>
    unfold checkTranscript at h
    repeat' split at h
    all_goals first
      | (injection h; done)
      | (injection h with h2; subst h2; decide)

/-- A validation failure is the failure of one of the six path checks. -/
theorem validateDoc_error_cases (d : TaskDoc) (m : String) (h : validateDoc d = .error m) :
    checkTitle d.title = .error m ∨ checkDescription d.description = .error m
    ∨ checkStatus d.status = .error m ∨ checkPriority d.priority = .error m
    ∨ checkDueDate d.dueDate = .error m ∨ checkTranscript d.transcript = .error m := by
  unfold validateDoc at h
  cases hT : checkTitle d.title
  case error m1 =>
    simp only [hT, Except.error.injEq] at h
    subst h
    exact .inl rfl
  case ok t =>
  simp only [hT] at h
  cases hD : checkDescription d.description
  case error m1 =>
    simp only [hD, Except.error.injEq] at h
    subst h
    exact .inr (.inl rfl)
  case ok ds =>
  simp only [hD] at h
  cases hS : checkStatus d.status
  case error m1 =>
    simp only [hS, Except.error.injEq] at h
    subst h
    exact .inr (.inr (.inl rfl))
  case ok st =>
  simp only [hS] at h
  cases hP : checkPriority d.priority
  case error m1 =>
    simp only [hP, Except.error.injEq] at h
    subst h
    exact .inr (.inr (.inr (.inl rfl)))
  case ok pr =>
  simp only [hP] at h
  cases hDD : checkDueDate d.dueDate
  case error m1 =>
    simp only [hDD, Except.error.injEq] at h
    subst h
    exact .inr (.inr (.inr (.inr (.inl rfl))))
  case ok dd =>
  simp only [hDD] at h
  cases hTR : checkTranscript d.transcript
  case error m1 =>
    simp only [hTR, Except.error.injEq] at h
    subst h
    exact .inr (.inr (.inr (.inr (.inr rfl))))
  case ok tr => simp [hTR] at h

/-- Schema validation never produces the duplicate-check message. -/
theorem validateDoc_error_ne_dup (d : TaskDoc) (m : String) (h : validateDoc d = .error m) :
    m ≠ "Task with same title and description already exists" := by
  intro hm
  rcases validateDoc_error_cases d m h with hc | hc | hc | hc | hc | hc
  · rcases checkTitle_error _ _ hc with h3 | h3 | h3 <;>
      (rw [hm] at h3; exact absurd h3 (by decide))
  · rcases checkDescription_error _ _ hc with h3 | h3 | h3 <;>
      (rw [hm] at h3; exact absurd h3 (by decide))
  · have h3 := checkStatus_error _ _ hc
    rw [hm] at h3
    exact absurd h3 (by decide)
  · rcases checkPriority_error _ _ hc with h3 | h3 <;>
      (rw [hm] at h3; exact absurd h3 (by decide))
  · have h3 := checkDueDate_error _ _ hc
    rw [hm] at h3
    exact absurd h3 (by decide)
  · rcases checkTranscript_error _ _ hc with h3 | h3 <;>
      (rw [hm] at h3; exact absurd h3 (by decide))

/-- On a dot-free pattern the regex full match is exactly case-insensitive
equality of the character lists. -/
theorem rxListFull_eq_ci (p : List Char) (hnd : ∀ c ∈ p, c ≠ '.') (s : List Char) :
    rxListFull p s = (p.map Char.toLower == s.map Char.toLower) := by
  induction p generalizing s with
  | nil => cases s <;> simp [rxListFull]
  | cons a ps ih =>
    cases s with
    | nil => simp [rxListFull]
    | cons c cs =>
      have ha : (a == '.') = false := by
        simp only [beq_eq_false_iff_ne, ne_eq]
        exact hnd a (List.mem_cons_self a ps)
      have ih' := ih (fun x hx => hnd x (List.mem_cons_of_mem _ hx)) cs
      simp only [rxListFull, rxCharMatch, ha, Bool.false_and, Bool.false_or, ih', List.map_cons,
        List.cons_beq_cons]

/-- The update tail never answers with the duplicate-check message. -/
theorem updateFinish_ne_dup (g : String → Option SDate) (today : SDate) (tasks : List Task)
    (b : UpdateBody) (uid : String) (task : Task) :
    (updateFinish g today tasks b uid task).1
      ≠ ⟨400, false, "Task with same title and description already exists"⟩ := by
  intro hcon
  unfold updateFinish at hcon
  cases hdate : updateDateStep g today b with
  | error e =>
    rw [hdate] at hcon
    cases e <;> simp at hcon
  | ok nd =>
    rw [hdate] at hcon
    cases hval : validateDoc (mergeDoc task b nd) with
    | error m =>
      simp only [hval, HResp.mk.injEq] at hcon
      exact validateDoc_error_ne_dup _ _ hval hcon.2.2
    | ok v => simp [hval] at hcon

/-- C5 (counterexample): the duplicate probe is a regex match of the
interpolated pair, not case-insensitive equality.  Creating with title
`"migrate a.i data layer"` against the stored title `"migrate aXi data
layer"` is rejected as a duplicate (the `.` matches `X`) although no stored
task equals the pair case-insensitively, refuting the claimed "exactly
when" characterisation. -/
theorem C5_counterexample :
    (createTask noGeneric sampleDate hexId24 1 [storedDotTask] dotCreateBody).1
      = ⟨400, false, "Task with same title and description already exists"⟩
    ∧ specCiEq (dupPattern dotCreateBody.title) storedDotTask.title = false
    ∧ specCiEq (dupPattern dotCreateBody.description) storedDotTask.description = true :=
  ⟨rfl, rfl, rfl⟩

/-- C5 (amended): on bodies whose interpolated patterns are free of regex
metacharacters other than `.` — the fragment `rxSafe` guards, on which the
modelled match is the real `^…$` `i`-flag regex semantics — create rejects
with `DuplicateTask` exactly when some stored task's title and description
both fully match the case-insensitive regexes built from the trimmed
supplied pair (an absent field interpolates as the literal text
`undefined`); update performs the same regex check under the same guard,
substituting the task's current title/description for a falsy body field
and excluding the record being updated; and on patterns free of all
metacharacters including `.` the regex match coincides with
case-insensitive equality, so the claimed consequences hold for such
pairs. -/
theorem C5_duplicate_amended :
    (∀ g today nid now tasks b,
      rxSafe (dupPattern b.title) = true → rxSafe (dupPattern b.description) = true →
      (((createTask g today nid now tasks b).1
          = ⟨400, false, "Task with same title and description already exists"⟩)
        ↔ ∃ tk ∈ tasks, rxFullMatch (dupPattern b.title) tk.title = true
            ∧ rxFullMatch (dupPattern b.description) tk.description = true))
    ∧ (∀ g today tasks b uid task, b.bodyId = some uid → uid ≠ "" →
        objectIdValid uid = true → tasks.find? (fun t => t.id == uid) = some task →
        rxSafe (strTrim (jsOr b.title task.title)) = true →
        rxSafe (strTrim (jsOr b.description task.description)) = true →
        (((updateTask g today tasks b).1
            = ⟨400, false, "Task with same title and description already exists"⟩)
          ↔ ((jsTruthy b.title || jsTruthy b.description) = true
            ∧ ∃ tk ∈ tasks, tk.id ≠ uid
              ∧ rxFullMatch (strTrim (jsOr b.title task.title)) tk.title = true
              ∧ rxFullMatch (strTrim (jsOr b.description task.description)) tk.description
                  = true)))
    ∧ (∀ pat s, rxSafe pat = true → (∀ c ∈ pat.data, c ≠ '.') →
        rxFullMatch pat s = specCiEq pat s) := by
  refine ⟨?_, ?_, ?_⟩
  · intro g today nid now tasks b hsafeT hsafeD
    constructor
    · intro hresp
      cases hdup : createDupHit tasks b with
      | some tk =>
        have hmem := List.mem_of_find?_eq_some hdup
        have hp := List.find?_some hdup
        simp only [Bool.and_eq_true] at hp
        exact ⟨tk, hmem, hp.1, hp.2⟩
      | none =>
        exfalso
        rw [createTask_eq g today nid now tasks b hdup] at hresp
        cases hdate : createDateStep g today b with
        | error e => cases e <;> simp [hdate] at hresp
        | ok pd =>
          simp only [hdate] at hresp
          cases htr : createTranscriptStep b with
          | none => simp [htr] at hresp
          | some trv =>
            simp only [htr] at hresp
            cases hval : validateDoc (createDoc b pd trv) with
            | error m =>
              simp only [hval, HResp.mk.injEq] at hresp
              exact validateDoc_error_ne_dup _ _ hval hresp.2.2
            | ok v => simp [hval] at hresp
    · rintro ⟨tk, hmem, h1, h2⟩
      have hsome : (createDupHit tasks b).isSome := by
        unfold createDupHit
        rw [List.find?_isSome]
        exact ⟨tk, hmem, by rw [h1, h2]; rfl⟩
      obtain ⟨tk', hfind⟩ := Option.isSome_iff_exists.mp hsome
      unfold createTask
      rw [hfind]
  · intro g today tasks b uid task hid hne hov hf hsafeT hsafeD
    constructor
    · intro hresp
      by_cases ht : (jsTruthy b.title || jsTruthy b.description) = true
      · cases hdup : updateDupHit tasks uid task b with
        | some tk =>
          have hmem := List.mem_of_find?_eq_some hdup
          have hp := List.find?_some hdup
          simp only [Bool.and_eq_true] at hp
          refine ⟨ht, tk, hmem, ?_, hp.1.2, hp.2⟩
          simpa using hp.1.1
        | none =>
          exfalso
          rw [updateTask_eq_finish g today tasks b uid task hid hne hov hf hdup] at hresp
          exact updateFinish_ne_dup g today tasks b uid task hresp
      · exfalso
        have hrun : updateTask g today tasks b = updateFinish g today tasks b uid task := by
          unfold updateTask
          simp only [hid, if_neg hne, hov, Bool.not_true, Bool.false_eq_true, if_false, hf,
            if_neg ht]
        rw [hrun] at hresp
        exact updateFinish_ne_dup g today tasks b uid task hresp
    · rintro ⟨ht, tk, hmem, hne2, h1, h2⟩
      have hsome : (updateDupHit tasks uid task b).isSome := by
        unfold updateDupHit
        rw [List.find?_isSome]
        refine ⟨tk, hmem, ?_⟩
        simp [h1, h2, hne2]
      obtain ⟨tk', hfind⟩ := Option.isSome_iff_exists.mp hsome
      unfold updateTask
      simp only [hid, if_neg hne, hov, Bool.not_true, Bool.false_eq_true, if_false, hf,
        if_pos ht, hfind]
  · intro pat s hsafe hnd
    unfold rxFullMatch specCiEq
    exact rxListFull_eq_ci pat.data hnd s.data

/-- Witness for `C5_duplicate_amended`: the create characterisation at the
dot-pattern fixture (whose interpolated patterns satisfy the `rxSafe`
guard) and the regex/case-insensitive agreement on a metacharacter-free
pattern. -/
theorem C5_witness :
    (rxSafe (dupPattern dotCreateBody.title) = true
      ∧ rxSafe (dupPattern dotCreateBody.description) = true
      ∧ rxSafe "abcdefghij" = true)
    ∧ ((createTask noGeneric sampleDate hexId24 1 [storedDotTask] dotCreateBody).1
        = ⟨400, false, "Task with same title and description already exists"⟩
      ↔ ∃ tk ∈ [storedDotTask],
          rxFullMatch (dupPattern dotCreateBody.title) tk.title = true
          ∧ rxFullMatch (dupPattern dotCreateBody.description) tk.description = true)
    ∧ rxFullMatch "abcdefghij" "ABCDEFGHIJ" = specCiEq "abcdefghij" "ABCDEFGHIJ" :=
  ⟨⟨by decide, by decide, by decide⟩,
    C5_duplicate_amended.1 noGeneric sampleDate hexId24 1 [storedDotTask] dotCreateBody
      (by decide) (by decide),
    C5_duplicate_amended.2.2 "abcdefghij" "ABCDEFGHIJ" (by decide) (by decide)⟩

/-- Inserting preserves length plus one. -/
theorem insertByCreated_length (t : Task) (l : List Task) :
    (insertByCreated t l).length = l.length + 1 := by
  induction l with
  | nil => rfl
  | cons h rest ih =>
    unfold insertByCreated
    split
    · simp
    · simp [ih]

/-- Sorting preserves length. -/
theorem sortDesc_length (l : List Task) : (sortDesc l).length = l.length := by
  induction l with
  | nil => rfl
  | cons h rest ih => simp [sortDesc, insertByCreated_length, ih]

/-- JavaScript `Math.ceil(n / l)` in terms of division and remainder. -/
theorem cdiv_eq (n l : Nat) (hl : 0 < l) :
    cdiv n l = n / l + (if n % l = 0 then 0 else 1) := by
  unfold cdiv
  have hqr : l * (n / l) + n % l = n := Nat.div_add_mod n l
  have hr : n % l < l := Nat.mod_lt _ hl
  by_cases h0 : n % l = 0
  · rw [if_pos h0]
    rw [show n + l - 1 = l * (n / l) + (l - 1) by
      generalize l * (n / l) = m at hqr ⊢
      omega]
    rw [Nat.mul_add_div hl]
    rw [Nat.div_eq_of_lt (show l - 1 < l by omega)]
  · rw [if_neg h0]
    rw [show n + l - 1 = l * (n / l + 1) + (n % l - 1) by
      rw [Nat.mul_add, Nat.mul_one]
      generalize l * (n / l) = m at hqr ⊢
      omega]
    rw [Nat.mul_add_div hl]
    rw [Nat.div_eq_of_lt (show n % l - 1 < l by omega)]

/-- A page index is below the page count exactly when its offset is below
the total. -/
theorem lt_cdiv_iff (p n l : Nat) (hl : 0 < l) : p < cdiv n l ↔ p * l < n := by
  unfold cdiv
  rw [Nat.lt_iff_add_one_le, Nat.le_div_iff_mul_le hl]
  have expand : (p + 1) * l = p * l + l := by ring
  generalize p * l = m at expand ⊢
  rw [expand]
  omega

/-- Length of a skip/limit slice. -/
theorem pageSlice_length (l : List Task) (p lim : Nat) :
    (pageSlice l p lim).length = min lim (l.length - (p - 1) * lim) := by
  unfold pageSlice
  rw [List.length_take, List.length_drop]

/-- The last page holds the remainder (or a full page when the limit
divides the total). -/
theorem lastPage_length (N l : Nat) (hl : 0 < l) (hN : 0 < N) :
    min l (N - (cdiv N l - 1) * l) = if N % l = 0 then l else N % l := by
  rw [cdiv_eq N l hl]
  have hqr : l * (N / l) + N % l = N := Nat.div_add_mod N l
  have hr : N % l < l := Nat.mod_lt _ hl
  by_cases h0 : N % l = 0
  · rw [if_pos h0, if_pos h0]
    generalize hq : N / l = q at hqr ⊢
    have hq1 : 1 ≤ q := by
      rcases Nat.eq_zero_or_pos q with hq0 | hq0
      · subst hq0
        simp at hqr
        omega
      · exact hq0
    have e1 : (q + 0 - 1) * l + 1 * l = q * l := by
      rw [← Nat.add_mul]
      congr 1
      omega
    have e2 : l * q = q * l := Nat.mul_comm l q
    rw [e2] at hqr
    generalize q * l = m at e1 hqr
    simp only [Nat.one_mul] at e1
    generalize (q + 0 - 1) * l = k at e1 ⊢
    omega
  · rw [if_neg h0, if_neg h0]
    generalize hq : N / l = q at hqr ⊢
    have e1 : (q + 1 - 1) * l = q * l := by
      rw [Nat.add_sub_cancel]
    have e2 : l * q = q * l := Nat.mul_comm l q
    rw [e2] at hqr
    rw [e1]
    generalize q * l = m at hqr ⊢
    omega

/-- C6: GET `/tasks` pagination.  An out-of-range page or limit fails with
`InvalidPagination` (400); otherwise the route answers with the slice of the
matching (sorted) tasks at offset `(p-1)·L` of at most `L` records, and the
metadata `totalItems = N`, `totalPages = ⌈N/L⌉`, `hasNext ↔ p < ⌈N/L⌉`
(equivalently `p·L < N`), `hasPrev ↔ p > 1`; in particular the last page
`⌈N/L⌉` holds `N mod L` records (or `L` when `L` divides `N`) with
`hasNext = false`, and page 1 with `N > L` has `hasNext = true`. -/
theorem C6_pagination (tasks : List Task) (q : ListQuery)
    (hs : invalidEnumParam validStatuses q.status = false)
    (hp : invalidEnumParam validPriorities q.priority = false) :
    ((q.page < 1 ∨ q.limit < 1 ∨ 100 < q.limit) →
      listTasks tasks q = .err 400 "Invalid pagination parameters")
    ∧ (1 ≤ q.page → 1 ≤ q.limit → q.limit ≤ 100 →
        listTasks tasks q
          = .ok (pageSlice (listMatched tasks q) q.page.toNat q.limit.toNat)
              ⟨q.page.toNat, cdiv (listMatched tasks q).length q.limit.toNat,
                (listMatched tasks q).length,
                decide (q.page.toNat < cdiv (listMatched tasks q).length q.limit.toNat),
                decide (1 < q.page.toNat)⟩
        ∧ (listMatched tasks q).length = (tasks.filter (taskMatches q)).length
        ∧ (pageSlice (listMatched tasks q) q.page.toNat q.limit.toNat).length ≤ q.limit.toNat
        ∧ (decide (q.page.toNat < cdiv (listMatched tasks q).length q.limit.toNat) = true
            ↔ q.page.toNat * q.limit.toNat < (listMatched tasks q).length)
        ∧ (1 ≤ (listMatched tasks q).length →
            q.page.toNat = cdiv (listMatched tasks q).length q.limit.toNat →
            (pageSlice (listMatched tasks q) q.page.toNat q.limit.toNat).length
              = (if (listMatched tasks q).length % q.limit.toNat = 0 then q.limit.toNat
                 else (listMatched tasks q).length % q.limit.toNat)
            ∧ decide (q.page.toNat < cdiv (listMatched tasks q).length q.limit.toNat) = false)
        ∧ (q.page = 1 → q.limit.toNat < (listMatched tasks q).length →
            decide (q.page.toNat < cdiv (listMatched tasks q).length q.limit.toNat) = true)) := by
  have hsneg : ¬ (invalidEnumParam validStatuses q.status = true) := by simp [hs]
  have hpneg : ¬ (invalidEnumParam validPriorities q.priority = true) := by simp [hp]
  constructor
  · intro hbad
    unfold listTasks
    rw [if_neg hsneg, if_neg hpneg, if_pos hbad]
  · intro h1 h2 h3
    have hok : ¬ (q.page < 1 ∨ q.limit < 1 ∨ 100 < q.limit) := by omega
    have hlim : 0 < q.limit.toNat := by omega
    refine ⟨?_, ?_, ?_, ?_, ?_, ?_⟩
    · unfold listTasks
      rw [if_neg hsneg, if_neg hpneg, if_neg hok]
    · unfold listMatched
      exact sortDesc_length _
    · rw [pageSlice_length]
      exact Nat.min_le_left _ _
    · simp only [decide_eq_true_eq]
      exact lt_cdiv_iff _ _ _ hlim
    · intro hN hpage
      constructor
      · rw [pageSlice_length, hpage]
        exact lastPage_length _ _ hlim hN
      · rw [hpage]
        simp
    · intro hp1 hlt
      simp only [decide_eq_true_eq]
      rw [hp1]
      have : (1 : Int).toNat = 1 := rfl
      rw [this]
      exact (lt_cdiv_iff 1 _ _ hlim).mpr (by omega)

/-- Witness for `C6_pagination` on a five-task store with page 3, limit 2:
the response equation and the matching count, with the guards discharged. -/
theorem C6_witness :
    ((1 : Int) ≤ listQueryW.page ∧ (1 : Int) ≤ listQueryW.limit ∧ listQueryW.limit ≤ 100)
    ∧ listTasks pagedTasks listQueryW
        = .ok (pageSlice (listMatched pagedTasks listQueryW)
              listQueryW.page.toNat listQueryW.limit.toNat)
            ⟨listQueryW.page.toNat,
              cdiv (listMatched pagedTasks listQueryW).length listQueryW.limit.toNat,
              (listMatched pagedTasks listQueryW).length,
              decide (listQueryW.page.toNat
                < cdiv (listMatched pagedTasks listQueryW).length listQueryW.limit.toNat),
              decide (1 < listQueryW.page.toNat)⟩
    ∧ (listMatched pagedTasks listQueryW).length
        = (pagedTasks.filter (taskMatches listQueryW)).length :=
  ⟨⟨by decide, by decide, by decide⟩,
    ((C6_pagination pagedTasks listQueryW rfl rfl).2 (by decide) (by decide) (by decide)).1,
    ((C6_pagination pagedTasks listQueryW rfl rfl).2 (by decide) (by decide) (by decide)).2.1⟩

/-- Every task has exactly one of the three statuses, so a filtered count
partitions across the three status buckets. -/
theorem filter_status_partition (P : Task → Bool) (ts : List Task) :
    (ts.filter P).length
      = (ts.filter fun t => P t && t.status == Status.toDo).length
        + (ts.filter fun t => P t && t.status == Status.inProgress).length
        + (ts.filter fun t => P t && t.status == Status.done).length := by
  induction ts with
  | nil => rfl
  | cons hd rest ih =>
    by_cases hP : P hd = true
    · cases hst : hd.status <;>
        (simp [List.filter_cons, hP, hst]; omega)
    · simp [List.filter_cons, hP, ih]

/-- C7: GET `/tasks/board` with shared page `p` and limit `L`.  Each status
bucket independently applies the non-status filters and returns its own
slice at offset `(p-1)·L` of at most `L` records; `statusCounts` carries
each bucket's matching count and `totalItems` is their sum, which equals
the number of tasks matching the non-status filters; `hasNext` holds iff
some bucket's count exceeds `p·L`, i.e. iff some bucket has pages beyond
the current one; `totalPages` is the maximum bucket page count. -/
theorem C7_board (tasks : List Task) (q : BoardQuery)
    (hpri : invalidEnumParam validPriorities q.priority = false)
    (hpage : 1 ≤ q.page) (h2 : 1 ≤ q.limit) :
    boardTasks tasks q
      = .ok (boardSlice tasks q .toDo q.page.toNat q.limit.toNat
            ++ boardSlice tasks q .inProgress q.page.toNat q.limit.toNat
            ++ boardSlice tasks q .done q.page.toNat q.limit.toNat)
          ⟨q.page.toNat,
            max (max (cdiv (boardCount tasks q .toDo) q.limit.toNat)
                (cdiv (boardCount tasks q .inProgress) q.limit.toNat))
              (cdiv (boardCount tasks q .done) q.limit.toNat),
            boardCount tasks q .toDo + boardCount tasks q .inProgress
              + boardCount tasks q .done,
            decide (q.page.toNat * q.limit.toNat < boardCount tasks q .toDo)
              || decide (q.page.toNat * q.limit.toNat < boardCount tasks q .inProgress)
              || decide (q.page.toNat * q.limit.toNat < boardCount tasks q .done),
            decide (1 < q.page.toNat),
            ⟨boardCount tasks q .toDo, boardCount tasks q .inProgress,
              boardCount tasks q .done⟩⟩
    ∧ boardCount tasks q .toDo + boardCount tasks q .inProgress + boardCount tasks q .done
        = (tasks.filter (boardMatches q)).length
    ∧ (∀ st, (boardSlice tasks q st q.page.toNat q.limit.toNat).length ≤ q.limit.toNat
        ∧ boardSlice tasks q st q.page.toNat q.limit.toNat
            = ((sortDesc (boardBucketAll tasks q st)).drop
                ((q.page.toNat - 1) * q.limit.toNat)).take q.limit.toNat)
    ∧ ((decide (q.page.toNat * q.limit.toNat < boardCount tasks q .toDo)
          || decide (q.page.toNat * q.limit.toNat < boardCount tasks q .inProgress)
          || decide (q.page.toNat * q.limit.toNat < boardCount tasks q .done)) = true
        ↔ ∃ st, q.page.toNat < cdiv (boardCount tasks q st) q.limit.toNat) := by
  have hlim : 0 < q.limit.toNat := by omega
  have hneg : ¬ (invalidEnumParam validPriorities q.priority = true) := by simp [hpri]
  have hpageN : 1 ≤ q.page.toNat := by omega
  refine ⟨?_, ?_, ?_, ?_⟩
  · unfold boardTasks
    rw [if_neg hneg]
  · exact (filter_status_partition (boardMatches q) tasks).symm
  · intro st
    constructor
    · rw [boardSlice, pageSlice_length]
      exact Nat.min_le_left _ _
    · rfl
  · simp only [Bool.or_eq_true, decide_eq_true_eq]
    constructor
    · rintro ((h | h) | h)
      · exact ⟨.toDo, (lt_cdiv_iff _ _ _ hlim).mpr h⟩
      · exact ⟨.inProgress, (lt_cdiv_iff _ _ _ hlim).mpr h⟩
      · exact ⟨.done, (lt_cdiv_iff _ _ _ hlim).mpr h⟩
    · rintro ⟨st, hst⟩
      have hlt := (lt_cdiv_iff _ _ _ hlim).mp hst
      cases st
      · exact .inl (.inl hlt)
      · exact .inl (.inr hlt)
      · exact .inr hlt

/-- Witness for `C7_board`: the count partition on the five-task store at
page 1, limit 2, with the guards discharged. -/
theorem C7_witness :
    (invalidEnumParam validPriorities boardQueryW.priority = false
      ∧ (1 : Int) ≤ boardQueryW.page ∧ (1 : Int) ≤ boardQueryW.limit)
    ∧ boardCount pagedTasks boardQueryW .toDo + boardCount pagedTasks boardQueryW .inProgress
        + boardCount pagedTasks boardQueryW .done
        = (pagedTasks.filter (boardMatches boardQueryW)).length :=
  ⟨⟨rfl, by decide, by decide⟩,
    (C7_board pagedTasks boardQueryW rfl (by decide) (by decide)).2.1⟩

/-- A string in the status enumeration parses to a status. -/
theorem parseStatus_of_contains (s : String) (h : validStatuses.contains s = true) :
    ∃ st, parseStatus s = some st := by
  by_cases h1 : s = "To Do"
  · subst h1
    exact ⟨.toDo, rfl⟩
  · by_cases h2 : s = "In Progress"
    · subst h2
      exact ⟨.inProgress, rfl⟩
    · by_cases h3 : s = "Done"
      · subst h3
        exact ⟨.done, rfl⟩
      · exfalso
        have hc : validStatuses.contains s = false := by
          simp [validStatuses, h1, h2, h3]
        rw [hc] at h
        exact Bool.false_ne_true h

/-- A string outside the status enumeration does not parse. -/
theorem parseStatus_none (s : String) (h : validStatuses.contains s = false) :
    parseStatus s = none := by
  have h1 : s ≠ "To Do" := fun he => by subst he; exact absurd h (by decide)
  have h2 : s ≠ "In Progress" := fun he => by subst he; exact absurd h (by decide)
  have h3 : s ≠ "Done" := fun he => by subst he; exact absurd h (by decide)
  unfold parseStatus
  rw [if_neg h1, if_neg h2, if_neg h3]

/-- A string outside the priority enumeration does not parse. -/
theorem parsePriority_none (p : String) (h : validPriorities.contains p = false) :
    parsePriority p = none := by
  have h1 : p ≠ "Low" := fun he => by subst he; exact absurd h (by decide)
  have h2 : p ≠ "Medium" := fun he => by subst he; exact absurd h (by decide)
  have h3 : p ≠ "High" := fun he => by subst he; exact absurd h (by decide)
  have h4 : p ≠ "Critical" := fun he => by subst he; exact absurd h (by decide)
  unfold parsePriority
  rw [if_neg h1, if_neg h2, if_neg h3, if_neg h4]

/-- The status value the create route stores always parses: an invalid or
absent status has been replaced by `To Do`. -/
theorem createStatusVal_valid (b : CreateBody) :
    ∃ st, parseStatus (createStatusVal b) = some st := by
  cases hbs : b.status with
  | none =>
    simp only [createStatusVal, hbs]
    exact ⟨.toDo, rfl⟩
  | some s =>
    simp only [createStatusVal, hbs]
    by_cases he : s = ""
    · rw [if_pos he]
      exact ⟨.toDo, rfl⟩
    · rw [if_neg he]
      by_cases hv : validStatuses.contains s = true
      · rw [if_pos hv]
        exact parseStatus_of_contains s hv
      · rw [if_neg hv]
        exact ⟨.toDo, rfl⟩

/-- C8 (counterexample): on the update path a status outside the
enumeration does not fall back to `To Do` — the save's enum validation
rejects the request with 400, leaving the store unchanged. -/
theorem C8_counterexample :
    updateTask noGeneric sampleDate [storedTask] badStatusBody
      = (⟨400, false, "Status must be To Do, In Progress, or Done"⟩, [storedTask])
    ∧ validStatuses.contains "Archived" = false :=
  ⟨rfl, rfl⟩

/-- C8 (amended): on the create path an invalid status is silently replaced
by `To Do` (the create route can never fail with the status enum message,
and a successful create under an invalid supplied status stores `To Do`),
whereas on the update path an invalid status rejects the write with 400 and
the enum message.  A missing priority or a priority outside the enumeration
rejects the create with 400 and the corresponding message; a missing or
out-of-bounds title rejects with 400 naming the title; and, once the title
passes, a missing or out-of-bounds description rejects with 400 naming the
description; each message is the first offending schema path in declaration
order. -/
theorem C8_validation_amended :
    (∀ g today nid now tasks b,
      (createTask g today nid now tasks b).1.message
        ≠ "Status must be To Do, In Progress, or Done")
    ∧ (∀ g today nid now tasks b s, b.status = some s → validStatuses.contains s = false →
        (createTask g today nid now tasks b).1.success = true →
        ∃ tk, (createTask g today nid now tasks b).2 = tasks ++ [tk] ∧ tk.status = .toDo)
    ∧ (∀ g today tasks b uid task s tv dv,
        b.bodyId = some uid → uid ≠ "" → objectIdValid uid = true →
        tasks.find? (fun t => t.id == uid) = some task →
        updateDupHit tasks uid task b = none → b.dueDate = none →
        b.status = some s → validStatuses.contains s = false →
        checkTitle (some (b.title.getD task.title)) = .ok tv →
        checkDescription (some (b.description.getD task.description)) = .ok dv →
        updateTask g today tasks b
          = (⟨400, false, "Status must be To Do, In Progress, or Done"⟩, tasks))
    ∧ (∀ g today nid now tasks b tv dv trv,
        createDupHit tasks b = none → b.dueDate = none →
        createTranscriptStep b = some trv →
        checkTitle (b.title.map strTrim) = .ok tv →
        checkDescription (b.description.map strTrim) = .ok dv →
        (b.priority = none →
          createTask g today nid now tasks b = (⟨400, false, "Priority is required"⟩, tasks))
        ∧ (∀ p, b.priority = some p → p ≠ "" → validPriorities.contains p = false →
            createTask g today nid now tasks b
              = (⟨400, false, "Priority must be Low, Medium, High, or Critical"⟩, tasks)))
    ∧ (∀ g today nid now tasks b trv,
        createDupHit tasks b = none → b.dueDate = none →
        createTranscriptStep b = some trv →
        (b.title = none →
          createTask g today nid now tasks b = (⟨400, false, "Title is required"⟩, tasks))
        ∧ (∀ t, b.title = some t → strTrim t ≠ "" → (strTrim t).length < 10 →
            createTask g today nid now tasks b
              = (⟨400, false, "Title must be at least 10 characters"⟩, tasks))
        ∧ (∀ t, b.title = some t → 250 < (strTrim t).length →
            createTask g today nid now tasks b
              = (⟨400, false, "Title must not exceed 250 characters"⟩, tasks)))
    ∧ (∀ g today nid now tasks b tv trv,
        createDupHit tasks b = none → b.dueDate = none →
        createTranscriptStep b = some trv →
        checkTitle (b.title.map strTrim) = .ok tv →
        (b.description = none →
          createTask g today nid now tasks b
            = (⟨400, false, "Description is required"⟩, tasks))
        ∧ (∀ d, b.description = some d → strTrim d ≠ "" → (strTrim d).length < 10 →
            createTask g today nid now tasks b
              = (⟨400, false, "Description must be at least 10 characters"⟩, tasks))
        ∧ (∀ d, b.description = some d → 500 < (strTrim d).length →
            createTask g today nid now tasks b
              = (⟨400, false, "Description must not exceed 500 characters"⟩, tasks))) := by
  refine ⟨?_, ?_, ?_, ?_, ?_, ?_⟩
  · intro g today nid now tasks b
    unfold createTask
    cases hdup : createDupHit tasks b
    case some => simp
    case none =>
    cases hdate : createDateStep g today b
    case error e => cases e <;> simp
    case ok pd =>
    cases htr : createTranscriptStep b
    case none => simp
    case some trv =>
    cases hval : validateDoc (createDoc b pd trv)
    case ok v => simp [hval]
    case error m =>
    simp only [hval]
    intro hm
    have hm' : m = "Status must be To Do, In Progress, or Done" := hm
    subst hm'
    rcases validateDoc_error_cases _ _ hval with hc | hc | hc | hc | hc | hc
    · rcases checkTitle_error _ _ hc with h3 | h3 | h3 <;> exact absurd h3 (by decide)
    · rcases checkDescription_error _ _ hc with h3 | h3 | h3 <;> exact absurd h3 (by decide)
    · obtain ⟨st, hps⟩ := createStatusVal_valid b
      simp only [createDoc] at hc
      simp only [checkStatus] at hc
      rw [hps] at hc
      simp at hc
    · rcases checkPriority_error _ _ hc with h3 | h3 <;> exact absurd h3 (by decide)
    · exact absurd (checkDueDate_error _ _ hc) (by decide)
    · rcases checkTranscript_error _ _ hc with h3 | h3 <;> exact absurd h3 (by decide)
  · intro g today nid now tasks b s hbs hsv hsucc
    obtain ⟨pd, trv, v, hdup, hdate, htr, hval, heq⟩ :=
      createTask_success_shape _ _ _ _ _ _ hsucc
    obtain ⟨-, -, hS, -, -, -⟩ := validateDoc_ok _ _ hval
    have hcsv : createStatusVal b = "To Do" := by
      simp only [createStatusVal, hbs]
      by_cases he : s = ""
      · rw [if_pos he]
      · rw [if_neg he, if_neg (fun hc => Bool.false_ne_true (hsv.symm.trans hc))]
    simp only [createDoc, hcsv] at hS
    have h2 : (Except.ok Status.toDo : Except String Status) = .ok v.status := hS
    exact ⟨mkTask nid now v, by rw [heq], (Except.ok.inj h2).symm⟩
  · intro g today tasks b uid task s tv dv hid hne hov hf hdup hdd hbs hsv hT hD
    rw [updateTask_eq_finish g today tasks b uid task hid hne hov hf hdup]
    unfold updateFinish
    have hdate : updateDateStep g today b = .ok none := by
      unfold updateDateStep
      rw [hdd]
    have hval : validateDoc (mergeDoc task b none)
        = .error "Status must be To Do, In Progress, or Done" := by
      unfold validateDoc
      simp only [mergeDoc]
      rw [hT, hD, hbs]
      simp only [Option.getD_some, checkStatus]
      rw [parseStatus_none s hsv]
    simp only [hdate, hval]
  · intro g today nid now tasks b tv dv trv hdup hdd htr hT hD
    have hdate : createDateStep g today b = .ok none := by
      unfold createDateStep
      rw [hdd]
    obtain ⟨st, hps⟩ := createStatusVal_valid b
    constructor
    · intro hpn
      rw [createTask_eq _ _ _ _ _ _ hdup]
      have hval : validateDoc (createDoc b none trv) = .error "Priority is required" := by
        unfold validateDoc
        simp only [createDoc]
        rw [hT, hD]
        simp only [checkStatus]
        rw [hps, hpn]
        try rfl
      simp only [hdate, htr, hval]
    · intro p hpp hpe hpv
      rw [createTask_eq _ _ _ _ _ _ hdup]
      have hval : validateDoc (createDoc b none trv)
          = .error "Priority must be Low, Medium, High, or Critical" := by
        unfold validateDoc
        simp only [createDoc]
        rw [hT, hD]
        simp only [checkStatus]
        rw [hps, hpp]
        simp only [checkPriority]
        rw [if_neg hpe, parsePriority_none p hpv]
        try rfl
      simp only [hdate, htr, hval]
  · intro g today nid now tasks b trv hdup hdd htr
    have hdate : createDateStep g today b = .ok none := by
      unfold createDateStep
      rw [hdd]
    refine ⟨?_, ?_, ?_⟩
    · intro htn
      rw [createTask_eq _ _ _ _ _ _ hdup]
      have hval : validateDoc (createDoc b none trv) = .error "Title is required" := by
        unfold validateDoc
        simp only [createDoc, htn, Option.map_none']
        rfl
      simp only [hdate, htr, hval]
    · intro t hbt hnet hlt
      rw [createTask_eq _ _ _ _ _ _ hdup]
      have hval : validateDoc (createDoc b none trv)
          = .error "Title must be at least 10 characters" := by
        unfold validateDoc
        simp only [createDoc, hbt, Option.map_some']
        simp only [checkTitle]
        rw [if_neg hnet, if_pos hlt]
        try rfl
      simp only [hdate, htr, hval]
    · intro t hbt hgt
      rw [createTask_eq _ _ _ _ _ _ hdup]
      have hnet : ¬ strTrim t = "" := by
        intro he
        rw [he] at hgt
        exact absurd hgt (by decide)
      have hval : validateDoc (createDoc b none trv)
          = .error "Title must not exceed 250 characters" := by
        unfold validateDoc
        simp only [createDoc, hbt, Option.map_some']
        simp only [checkTitle]
        rw [if_neg hnet, if_neg (by omega), if_pos hgt]
        try rfl
      simp only [hdate, htr, hval]
  · intro g today nid now tasks b tv trv hdup hdd htr hT
    have hdate : createDateStep g today b = .ok none := by
      unfold createDateStep
      rw [hdd]
    refine ⟨?_, ?_, ?_⟩
    · intro hdn
      rw [createTask_eq _ _ _ _ _ _ hdup]
      have hval : validateDoc (createDoc b none trv) = .error "Description is required" := by
        unfold validateDoc
        simp only [createDoc]
        rw [hT]
        simp only [hdn, Option.map_none']
        rfl
      simp only [hdate, htr, hval]
    · intro d hbd hned hld
      rw [createTask_eq _ _ _ _ _ _ hdup]
      have hval : validateDoc (createDoc b none trv)
          = .error "Description must be at least 10 characters" := by
        unfold validateDoc
        simp only [createDoc]
        rw [hT]
        simp only [hbd, Option.map_some']
        simp only [checkDescription]
        rw [if_neg hned, if_pos hld]
        try rfl
      simp only [hdate, htr, hval]
    · intro d hbd hgd
      rw [createTask_eq _ _ _ _ _ _ hdup]
      have hned : ¬ strTrim d = "" := by
        intro he
        rw [he] at hgd
        exact absurd hgd (by decide)
      have hval : validateDoc (createDoc b none trv)
          = .error "Description must not exceed 500 characters" := by
        unfold validateDoc
        simp only [createDoc]
        rw [hT]
        simp only [hbd, Option.map_some']
        simp only [checkDescription]
        rw [if_neg hned, if_neg (by omega), if_pos hgd]
        try rfl
      simp only [hdate, htr, hval]

/-- Witness for `C8_validation_amended`: the update-path enum rejection at
the `"Archived"` fixture with all guards discharged. -/
theorem C8_witness :
    (updateDupHit [storedTask] storedTask.id storedTask badStatusBody = none
      ∧ validStatuses.contains "Archived" = false
      ∧ objectIdValid storedTask.id = true)
    ∧ updateTask noGeneric sampleDate [storedTask] badStatusBody
        = (⟨400, false, "Status must be To Do, In Progress, or Done"⟩, [storedTask]) :=
  ⟨⟨rfl, rfl, rfl⟩,
    C8_validation_amended.2.2.1 noGeneric sampleDate [storedTask] badStatusBody storedTask.id
      storedTask "Archived" storedTask.title storedTask.description rfl (by decide) rfl rfl
      rfl rfl rfl rfl rfl rfl⟩

/-- C9: on the create path a missing or whitespace-only transcript is
defaulted to the first 1000 characters of the supplied description, or of
the supplied title when the description is absent or empty, so the created
record's transcript is never left absent; a supplied transcript with a
non-empty trim is stored trimmed. -/
theorem C9_transcript_default (g : String → Option SDate) (today : SDate) (nid : String)
    (now : Nat) (tasks : List Task) (b : CreateBody)
    (hsucc : (createTask g today nid now tasks b).1.success = true) :
    (∀ tr, b.transcript = some tr → strTrim tr ≠ "" →
      ∃ tk, (createTask g today nid now tasks b).2 = tasks ++ [tk]
        ∧ tk.transcript = some (strTrim tr))
    ∧ ((b.transcript = none ∨ (∃ tr, b.transcript = some tr ∧ strTrim tr = "")) →
        (∀ d, b.description = some d → d ≠ "" →
          ∃ tk, (createTask g today nid now tasks b).2 = tasks ++ [tk]
            ∧ tk.transcript = some (strTake d 1000))
        ∧ (∀ ti, (b.description = none ∨ b.description = some "") → b.title = some ti →
            ∃ tk, (createTask g today nid now tasks b).2 = tasks ++ [tk]
              ∧ tk.transcript = some (strTake ti 1000))) := by
  obtain ⟨pd, trv, v, hdup, hdate, htr, hval, heq⟩ :=
    createTask_success_shape _ _ _ _ _ _ hsucc
  obtain ⟨-, -, -, -, -, hTR⟩ := validateDoc_ok _ _ hval
  simp only [createDoc] at hTR
  constructor
  · intro tr hbt hne
    have htr2 : createTranscriptStep b = some (some (strTrim tr)) := by
      simp only [createTranscriptStep, hbt]
      rw [if_neg hne]
    rw [htr2] at htr
    obtain rfl : some (strTrim tr) = trv := Option.some.inj htr
    exact ⟨mkTask nid now v, by rw [heq], hTR.symm⟩
  · intro hdef
    have hdefault : createTranscriptStep b = createTranscriptDefault b := by
      rcases hdef with hn | ⟨tr, hbt, hte⟩
      · simp only [createTranscriptStep, hn]
      · simp only [createTranscriptStep, hbt]
        rw [if_pos hte]
    constructor
    · intro d hbd hdne
      have hd2 : createTranscriptDefault b = some (some (strTake d 1000)) := by
        unfold createTranscriptDefault
        simp only [jsOrStr, hbd]
        rw [if_neg hdne]
      rw [hdefault, hd2] at htr
      obtain rfl : some (strTake d 1000) = trv := Option.some.inj htr
      exact ⟨mkTask nid now v, by rw [heq], hTR.symm⟩
    · intro ti hdesc hbt
      have hd2 : createTranscriptDefault b = some (some (strTake ti 1000)) := by
        unfold createTranscriptDefault
        rcases hdesc with hn | he
        · simp only [jsOrStr, hn, hbt]
        · simp only [jsOrStr, he, hbt]
          try rfl
      rw [hdefault, hd2] at htr
      obtain rfl : some (strTake ti 1000) = trv := Option.some.inj htr
      exact ⟨mkTask nid now v, by rw [heq], hTR.symm⟩

/-- Witness for `C9_transcript_default`: a create without transcript stores
the description prefix. -/
theorem C9_witness :
    (createTask noGeneric sampleDate hexId24 0 [] createBody9).1.success = true
    ∧ ∃ tk, (createTask noGeneric sampleDate hexId24 0 [] createBody9).2 = [] ++ [tk]
        ∧ tk.transcript = some (strTake "Prepare the gear list now" 1000) :=
  ⟨rfl,
    ((C9_transcript_default noGeneric sampleDate hexId24 0 [] createBody9 rfl).2
      (.inl rfl)).1 "Prepare the gear list now" rfl (by decide)⟩

/-- The update tail never answers 404. -/
theorem updateFinish_status (g : String → Option SDate) (today : SDate) (tasks : List Task)
    (b : UpdateBody) (uid : String) (task : Task) :
    (updateFinish g today tasks b uid task).1.status ≠ 404 := by
  intro hcon
  unfold updateFinish at hcon
  cases hdate : updateDateStep g today b with
  | error e =>
    rw [hdate] at hcon
    cases e <;> simp at hcon
  | ok nd =>
    rw [hdate] at hcon
    cases hval : validateDoc (mergeDoc task b nd) with
    | error m => simp [hval] at hcon
    | ok v => simp [hval] at hcon

/-- C10: for view-task, update-task and delete-task, a missing id (or empty
string) and a syntactically invalid id are rejected with 400 before any
lookup, a well-formed id matching no stored task yields 404, a 404 can only
arise that way, and in all these cases the stored tasks are unchanged. -/
theorem C10_id_guards (tasks : List Task) (oid : Option String)
    (g : String → Option SDate) (today : SDate) (b : UpdateBody) :
    ((oid = none ∨ oid = some "") →
      viewTask tasks oid = (⟨400, false, "Task ID is required"⟩, tasks)
      ∧ deleteTask tasks oid = (⟨400, false, "Task ID is required"⟩, tasks))
    ∧ ((b.bodyId = none ∨ b.bodyId = some "") →
      updateTask g today tasks b = (⟨400, false, "Task ID is required"⟩, tasks))
    ∧ (∀ id, oid = some id → id ≠ "" → objectIdValid id = false →
      viewTask tasks oid = (⟨400, false, "Invalid task ID"⟩, tasks)
      ∧ deleteTask tasks oid = (⟨400, false, "Invalid task ID"⟩, tasks))
    ∧ (∀ id, b.bodyId = some id → id ≠ "" → objectIdValid id = false →
      updateTask g today tasks b = (⟨400, false, "Invalid task ID"⟩, tasks))
    ∧ (∀ id, oid = some id → id ≠ "" → objectIdValid id = true →
      tasks.find? (fun t => t.id == id) = none →
      viewTask tasks oid = (⟨404, false, "Task not found"⟩, tasks)
      ∧ deleteTask tasks oid = (⟨404, false, "Task not found"⟩, tasks))
    ∧ (∀ id, b.bodyId = some id → id ≠ "" → objectIdValid id = true →
      tasks.find? (fun t => t.id == id) = none →
      updateTask g today tasks b = (⟨404, false, "Task not found"⟩, tasks))
    ∧ ((viewTask tasks oid).1.status = 404 →
      ∃ id, oid = some id ∧ id ≠ "" ∧ objectIdValid id = true
        ∧ tasks.find? (fun t => t.id == id) = none)
    ∧ ((deleteTask tasks oid).1.status = 404 →
      ∃ id, oid = some id ∧ id ≠ "" ∧ objectIdValid id = true
        ∧ tasks.find? (fun t => t.id == id) = none)
    ∧ ((updateTask g today tasks b).1.status = 404 →
      ∃ id, b.bodyId = some id ∧ id ≠ "" ∧ objectIdValid id = true
        ∧ tasks.find? (fun t => t.id == id) = none) := by
  refine ⟨?_, ?_, ?_, ?_, ?_, ?_, ?_, ?_, ?_⟩
  · intro h
    rcases h with h | h <;> subst h <;> exact ⟨rfl, rfl⟩
  · intro h
    rcases h with h | h <;> simp [updateTask, h]
  · intro id h hne hov
    subst h
    constructor <;> simp [viewTask, deleteTask, hne, hov]
  · intro id h hne hov
    simp [updateTask, h, hne, hov]
  · intro id h hne hov hfind
    subst h
    constructor <;> simp [viewTask, deleteTask, hne, hov, hfind]
  · intro id h hne hov hfind
    simp [updateTask, h, hne, hov, hfind]
  · intro h404
    unfold viewTask at h404
    cases hid : oid with
    | none => simp [hid] at h404
    | some id =>
      simp only [hid] at h404
      by_cases hne : id = ""
      · rw [if_pos hne] at h404
        simp at h404
      · rw [if_neg hne] at h404
        cases hov : objectIdValid id with
        | false => simp [hov] at h404
        | true =>
          simp only [hov, Bool.not_true, Bool.false_eq_true, if_false] at h404
          cases hfind : tasks.find? (fun t => t.id == id) with
          | some tk => simp [hfind] at h404
          | none => exact ⟨id, rfl, hne, hov, hfind⟩
  · intro h404
    unfold deleteTask at h404
    cases hid : oid with
    | none => simp [hid] at h404
    | some id =>
      simp only [hid] at h404
      by_cases hne : id = ""
      · rw [if_pos hne] at h404
        simp at h404
      · rw [if_neg hne] at h404
        cases hov : objectIdValid id with
        | false => simp [hov] at h404
        | true =>
          simp only [hov, Bool.not_true, Bool.false_eq_true, if_false] at h404
          cases hfind : tasks.find? (fun t => t.id == id) with
          | some tk => simp [hfind] at h404
          | none => exact ⟨id, rfl, hne, hov, hfind⟩
  · intro h404
    unfold updateTask at h404
    cases hid : b.bodyId with
    | none => simp [hid] at h404
    | some id =>
      simp only [hid] at h404
      by_cases hne : id = ""
      · rw [if_pos hne] at h404
        simp at h404
      · rw [if_neg hne] at h404
        cases hov : objectIdValid id with
        | false => simp [hov] at h404
        | true =>
          simp only [hov, Bool.not_true, Bool.false_eq_true, if_false] at h404
          cases hfind : tasks.find? (fun t => t.id == id) with
          | none => exact ⟨id, rfl, hne, hov, hfind⟩
          | some task =>
            simp only [hfind] at h404
            exfalso
            by_cases ht : (jsTruthy b.title || jsTruthy b.description) = true
            · rw [if_pos ht] at h404
              cases hdup : updateDupHit tasks id task b with
              | some tk => simp [hdup] at h404
              | none =>
                simp only [hdup] at h404
                exact updateFinish_status g today tasks b id task h404
            · rw [if_neg ht] at h404
              exact updateFinish_status g today tasks b id task h404

/-- Witness for `C10_id_guards`: an invalid-id rejection and a well-formed
404 on the empty store, with the guards discharged. -/
theorem C10_witness :
    (("zz" : String) ≠ "" ∧ objectIdValid "zz" = false ∧ objectIdValid hexId24 = true
      ∧ ([] : List Task).find? (fun t => t.id == hexId24) = none)
    ∧ viewTask [] (some "zz") = (⟨400, false, "Invalid task ID"⟩, [])
    ∧ deleteTask [] (some hexId24) = (⟨404, false, "Task not found"⟩, []) :=
  ⟨⟨by decide, rfl, rfl, rfl⟩,
    ((C10_id_guards [] (some "zz") noGeneric sampleDate emptyUpdateBody).2.2.1 "zz" rfl
      (by decide) rfl).1,
    ((C10_id_guards [] (some hexId24) noGeneric sampleDate emptyUpdateBody).2.2.2.2.1 hexId24
      rfl (by decide) rfl rfl).2⟩

end Aerchain
